import Mathlib

/-!
Verification of the observable normalization and scientific-notation
formatting pipeline of `orders_of_magnitude` (`render_site.py` /
`render_index_html.py`), against a shallow embedding of the Python source.

Python `decimal.Decimal` values are embedded as either a finite triple
(sign, coefficient, exponent) denoting `(-1)^sign * coeff * 10^exp`, or an
infinity with a sign, or a NaN.  YAML scalars are embedded as an inductive
`Raw` type; Python exceptions become an error sum type carrying the exact
message strings built by the source.
-/

instance instDecEqExcept {e a : Type} [DecidableEq e] [DecidableEq a] :
    DecidableEq (Except e a) := fun x y =>
  match x, y with
  | Except.error e1, Except.error e2 =>
    if h : e1 = e2 then isTrue (by rw [h]) else isFalse (fun hc => h (by injection hc))
  | Except.ok v1, Except.ok v2 =>
    if h : v1 = v2 then isTrue (by rw [h]) else isFalse (fun hc => h (by injection hc))
  | Except.error e1, Except.ok v2 => isFalse (fun hc => Except.noConfusion hc)
  | Except.ok v1, Except.error e2 => isFalse (fun hc => Except.noConfusion hc)

namespace OrdersOfMagnitude

/-- A finite Python `Decimal`: `(-1)^sign * coeff * 10^exp`.
The coefficient is an unsigned natural written without leading zeros
(`numDigits coeff` digits). -/
structure Dec where
  sign : Bool
  coeff : Nat
  exp : Int
  deriving Repr, DecidableEq

/-- A Python `Decimal` value: finite, signed infinity, or NaN. -/
inductive PyDecimal where
  | fin (d : Dec)
  | inf (sign : Bool)
  | nan
  deriving Repr, DecidableEq

/-- Python exceptions raised by the loader/formatter, with their messages. -/
inductive PyErr where
  | typeError (msg : String)
  | valueError (msg : String)
  /-- `decimal.InvalidOperation` from `Decimal(str(value))` on a malformed
  string; raised without a field/index message. -/
  | invalidOperation
  /-- `pint.UndefinedUnitError` escaping `_convert_to_target_unit` when the
  *target* unit is unknown (the second `try` only catches
  `DimensionalityError`). -/
  | uncaughtUndefinedUnit
  /-- Modelled from the spec: the spec demands exact decimal conversion
  ("coerced back to an exact decimal ... never silently accepting
  binary-float rounding"), so a conversion ratio whose exact rational result
  is not representable as a decimal falls outside the exactness contract and
  is modelled as a failure. -/
  | inexactMagnitude
  deriving Repr, DecidableEq

/-- Powers of ten `10^e : ℚ` for a signed integer exponent, by cases on the sign. -/
def tpow : Int → ℚ
  | Int.ofNat n => (10 : ℚ) ^ n
  | Int.negSucc n => 1 / (10 : ℚ) ^ (n + 1)

/-- Rational value denoted by a finite decimal. -/
def Dec.toRat (d : Dec) : ℚ :=
  (if d.sign then -1 else 1) * (d.coeff : ℚ) * tpow d.exp

/-- Base-10 digit count by repeated division, with structural fuel so the
kernel can evaluate it. -/
def digLenAux : Nat → Nat → Nat
  | 0, _ => 0
  | fuel + 1, n => if n < 10 then 1 else digLenAux fuel (n / 10) + 1

/-- Number of decimal digits of the coefficient (`len(digits)` of the Python
`Decimal` tuple of a nonzero value); `Nat.log 10 c + 1` for `c ≠ 0`. -/
def numDigits (c : Nat) : Nat := digLenAux c c

/-- Python `Decimal.adjusted()`: exponent of the most significant digit,
`exp + len(digits) - 1`. -/
def Dec.adjusted (d : Dec) : Int := (numDigits d.coeff : Int) - 1 + d.exp

/-- Python `Decimal.copy_abs()` on a finite decimal. -/
def Dec.copy_abs (d : Dec) : Dec := ⟨false, d.coeff, d.exp⟩

/-- Rounding of `c / D` with ROUND_HALF_EVEN (`D` a positive power of ten):
round up when the remainder exceeds half of `D`, down when below, and to the
even quotient on an exact half — CPython's `_round_half_even` digit rule. -/
def halfEvenDiv (c D : Nat) : Nat :=
  if D < 2 * (c % D) then c / D + 1
  else if 2 * (c % D) < D then c / D
  else if (c / D) % 2 = 1 then c / D + 1 else c / D

/-- Python `Decimal._fix` under the default context (`prec = 28`,
`ROUND_HALF_EVEN`), restricted to values in the normal exponent range (the
only values the pipeline produces: the scaled mantissa always has adjusted
exponent `0`, so the overflow/subnormal/clamp branches of `_fix` cannot
fire).  A coefficient of more than 28 digits is rounded half-even to 28
significant digits; when rounding carries into a 29th digit (`10^28`), the
trailing zero is dropped and the exponent incremented, as `_fix` does. -/
def ctxFix (d : Dec) : Dec :=
  if numDigits d.coeff ≤ 28 then
    d
  else
    let k := numDigits d.coeff - 28
    let q := halfEvenDiv d.coeff (10 ^ k)
    if q = 10 ^ 28 then ⟨d.sign, 10 ^ 27, d.exp + k + 1⟩
    else ⟨d.sign, q, d.exp + k⟩

/-- Python `Decimal.scaleb(k)` on a finite decimal under the default
context: the argument is limited to `±2*(Emax + prec) = ±2000054`
(`InvalidOperation` outside that range, trapped by default so it raises),
and the shifted result passes through `_fix`, which rounds it to the
context's 28 significant digits. -/
def Dec.scaleb (d : Dec) (k : Int) : Except PyErr Dec :=
  if k < -2000054 ∨ 2000054 < k then
    Except.error PyErr.invalidOperation
  else
    Except.ok (ctxFix ⟨d.sign, d.coeff, d.exp + k⟩)

/-- Python `Decimal.quantize(Decimal("0.01"), rounding=ROUND_HALF_UP)` on a finite
nonnegative decimal, as called by `_scientific_parts`: round the value to
exponent `-2`, ties away from zero.  When the exponent is already `≥ -2` the
rescaling is exact; otherwise the coefficient is divided by `10^(-(exp+2))`
with half-up rounding (`(c + D/2) / D` in integer arithmetic). -/
def Dec.quantize (d : Dec) : Dec :=
  if -2 ≤ d.exp then
    ⟨d.sign, d.coeff * 10 ^ (d.exp + 2).toNat, -2⟩
  else
    ⟨d.sign, (d.coeff + 10 ^ (-(d.exp + 2)).toNat / 2) / 10 ^ (-(d.exp + 2)).toNat, -2⟩

/-- Python `str()` of a nonnegative `Decimal` with exponent `-2` and
coefficient `q`: the digits of `q` with a point before the last two
(zero-padded to at least "0.00"). -/
def mantissaStr (q : Nat) : String :=
  toString (q / 100) ++ "." ++
    (if q % 100 < 10 then "0" ++ toString (q % 100) else toString (q % 100))

/-- Embedding of `_scientific_parts(value)`: mantissa string and exponent for scientific
notation display.  Zero (of either sign) short-circuits to `("0.00", 0)`;
non-finite values raise `ValueError`; otherwise the absolute value is scaled
by `scaleb(-adjusted)` — which raises `InvalidOperation` when the adjusted
exponent is outside `±2000054`, and context-rounds a coefficient of more
than 28 digits half-even — then quantized to two decimal places half-up,
rolled over when the rounded mantissa equals `10.00`, and prefixed with `-`
when the input is signed. -/
def scientificParts : PyDecimal → Except PyErr (String × Int)
  | PyDecimal.fin d =>
    if d.coeff = 0 then
      Except.ok ("0.00", 0)
    else
      let exponent := d.copy_abs.adjusted
      match d.copy_abs.scaleb (-exponent) with
      | Except.error e => Except.error e
      | Except.ok scaled =>
        let mantissa := scaled.quantize
        let rolled : Nat × Int :=
          if mantissa.coeff = 1000 then (100, exponent + 1) else (mantissa.coeff, exponent)
        let sign := if d.sign then "-" else ""
        Except.ok (sign ++ mantissaStr rolled.1, rolled.2)
  | PyDecimal.inf _ => Except.error (PyErr.valueError "Observable value must be a finite number.")
  | PyDecimal.nan => Except.error (PyErr.valueError "Observable value must be a finite number.")

/-! ### Raw YAML values and the Python `Decimal` string constructor -/

/-- A value produced by `yaml.safe_load`: the Python scalars and containers
the loader inspects.  A host float is carried by its `str()` representation
(the shortest round-tripping decimal string, or `inf`/`nan`), since the only
operation the loader applies to a float is `str`. -/
inductive Raw where
  | bool (b : Bool)
  | int (n : Int)
  | float (rep : String)
  | str (s : String)
  | list (xs : List Raw)
  | map (kvs : List (String × Raw))
  | none
  deriving Repr

/-- First-match association-list lookup (Python `dict` access; keys are
unique in a parsed YAML mapping). -/
def lookupKey {α : Type} (kvs : List (String × α)) (k : String) : Option α :=
  match kvs with
  | [] => Option.none
  | (k2, v) :: rest => if k2 = k then some v else lookupKey rest k

/-- Numeric value of a digit list (most significant first). -/
def digitsVal (cs : List Char) : Nat :=
  cs.foldl (fun a c => 10 * a + (c.toNat - 48)) 0

/-- Recognizer for a `NaN`/`sNaN` body with optional diagnostic digits (case already
lowered). -/
def isNanBody (body : List Char) : Bool :=
  match body with
  | 'n' :: 'a' :: 'n' :: rest => rest.all Char.isDigit
  | 's' :: 'n' :: 'a' :: 'n' :: rest => rest.all Char.isDigit
  | _ => false

/-- Exponent suffix of a numeric decimal string: empty, or `e`/`E` followed
by an optional sign and at least one digit (case already lowered). -/
def parseExpPart (cs : List Char) : Option Int :=
  match cs with
  | [] => some 0
  | 'e' :: es =>
    let se : Bool × List Char :=
      match es with
      | '-' :: r => (true, r)
      | '+' :: r => (false, r)
      | r => (false, r)
    if se.2 ≠ [] ∧ se.2.all Char.isDigit then
      some (if se.1 then -(digitsVal se.2 : Int) else (digitsVal se.2 : Int))
    else
      Option.none
  | _ => Option.none

/-- Strip leading and trailing whitespace (Python `str.strip()`). -/
def trimWs (cs : List Char) : List Char :=
  ((cs.dropWhile Char.isWhitespace).reverse.dropWhile Char.isWhitespace).reverse

/-- Python `Decimal(s)` for a string `s`, per the CPython `decimal` grammar: strip
surrounding whitespace and underscores, read an optional sign, then either
`inf`/`infinity`, `nan`/`snan` with optional digits (all case-insensitive),
or digits with an optional fraction and an optional `e`-exponent.  Returns
`none` when the constructor would raise `InvalidOperation`. -/
def decParse (s : String) : Option PyDecimal :=
  let cs := ((trimWs s.data).filter (fun c => c ≠ '_')).map Char.toLower
  let signBody : Bool × List Char :=
    match cs with
    | '-' :: rest => (true, rest)
    | '+' :: rest => (false, rest)
    | rest => (false, rest)
  let sign := signBody.1
  let body := signBody.2
  if body = ['i', 'n', 'f'] ∨ body = ['i', 'n', 'f', 'i', 'n', 'i', 't', 'y'] then
    some (PyDecimal.inf sign)
  else if isNanBody body then
    some PyDecimal.nan
  else
    let mantExp := body.span (fun c => c != 'e')
    let intFrac := mantExp.1.span (fun c => c != '.')
    let ipart := intFrac.1
    let fpart : Option (List Char) :=
      match intFrac.2 with
      | [] => some []
      | '.' :: f => some f
      | _ => Option.none
    match fpart with
    | Option.none => Option.none
    | some f =>
      if ipart.all Char.isDigit ∧ f.all Char.isDigit ∧ ipart ++ f ≠ [] then
        match parseExpPart mantExp.2 with
        | some e => some (PyDecimal.fin ⟨sign, digitsVal (ipart ++ f), e - f.length⟩)
        | Option.none => Option.none
      else
        Option.none

/-! ### The Dataset Loader -/

/-- The `Observable` record of `render_site.py`: one entry normalized to the
dataset target unit. -/
structure Observable where
  name : String
  value : PyDecimal
  unit : String
  deriving Repr, DecidableEq

/-- The `Dataset` record of `render_site.py`. -/
structure Dataset where
  title : String
  observables : List Observable
  deriving Repr, DecidableEq

/-- Embedding of `_ensure_mapping(item, message)`. -/
def ensureMapping (item : Raw) (message : String) : Except PyErr (List (String × Raw)) :=
  match item with
  | Raw.map kvs => Except.ok kvs
  | _ => Except.error (PyErr.typeError message)

/-- Embedding of `_ensure_string(value, message)`; Python `None` (a `dict.get` miss) is
embedded as `Raw.none` and is not a string. -/
def ensureString (value : Raw) (message : String) : Except PyErr String :=
  match value with
  | Raw.str s => Except.ok s
  | _ => Except.error (PyErr.typeError message)

/-- Embedding of `_parse_decimal(value, message)`: reject booleans and anything that is
not an `int`, `float`, or `str`, then take `Decimal(str(value))`.  For an
`int` the string round-trip is exact, giving coefficient `|n|` and exponent
`0`; floats and strings go through the `Decimal` string constructor, whose
failure is an uncaught `InvalidOperation`. -/
def parseDecimal (value : Raw) (message : String) : Except PyErr PyDecimal :=
  match value with
  | Raw.bool _ => Except.error (PyErr.typeError message)
  | Raw.int n => Except.ok (PyDecimal.fin ⟨decide (n < 0), n.natAbs, 0⟩)
  | Raw.float rep =>
    match decParse rep with
    | some d => Except.ok d
    | Option.none => Except.error PyErr.invalidOperation
  | Raw.str s =>
    match decParse s with
    | some d => Except.ok d
    | Option.none => Except.error PyErr.invalidOperation
  | _ => Except.error (PyErr.typeError message)

/-! ### Unit conversion -/

/-- An unreduced fraction `num / den` over machine integers (kept separate
from `ℚ` so that the kernel can evaluate conversions). -/
structure Frac where
  num : Int
  den : Nat
  deriving Repr, DecidableEq

/-- Rational value of a fraction. -/
def Frac.toRat (f : Frac) : ℚ := (f.num : ℚ) / (f.den : ℚ)

/-- Fraction multiplication, without reduction. -/
def Frac.mul (a b : Frac) : Frac := ⟨a.num * b.num, a.den * b.den⟩

/-- Fraction division, without reduction; the divisor's sign moves to the
numerator. -/
def Frac.div (a b : Frac) : Frac :=
  if 0 ≤ b.num then ⟨a.num * (b.den : Int), a.den * b.num.natAbs⟩
  else ⟨-(a.num * (b.den : Int)), a.den * b.num.natAbs⟩

/-- A finite decimal as a fraction: numerator `±coeff * 10^exp` over `1`, or
`±coeff` over `10^(-exp)` for a negative exponent. -/
def Dec.toFrac (d : Dec) : Frac :=
  match d.exp with
  | Int.ofNat n => ⟨(if d.sign then -1 else 1) * (d.coeff : Int) * 10 ^ n, 1⟩
  | Int.negSucc n => ⟨(if d.sign then -1 else 1) * (d.coeff : Int), 10 ^ (n + 1)⟩

/-- Modelled from the spec: the external pint unit registry (spec §6), which
is not part of this repository.  A unit symbol resolves to a dimension and a
positive scale factor to the dimension's base unit; conversion between two
units of one dimension multiplies by the ratio of their factors. -/
structure UnitDef where
  dimension : String
  factor : Frac
  deriving Repr, DecidableEq

/-- Repeated division by `p` with structural fuel, so the kernel can
evaluate it. -/
def factorOutAux (p : Nat) : Nat → Nat → Nat × Nat
  | 0, n => (0, n)
  | fuel + 1, n =>
    if 1 < p ∧ 0 < n ∧ n % p = 0 then
      let r := factorOutAux p fuel (n / p)
      (r.1 + 1, r.2)
    else
      (0, n)

/-- Largest power of `p` dividing `n`, with the cofactor:
`factorOut p n = (k, m)` where `n = m * p^k` and, for `1 < p` and `0 < n`,
`p` does not divide `m`. -/
def factorOut (p : Nat) (n : Nat) : Nat × Nat := factorOutAux p n n

/-- Exact decimal representation of a fraction, when one exists: after
reducing by the gcd, the denominator must factor as `2^a * 5^b`, and then
the value is `±(n * 10^k / d) * 10^(-k)` with `k = max a b`. -/
def fracToDec (f : Frac) : Option Dec :=
  if f.den = 0 then
    Option.none
  else
    let g := f.num.natAbs.gcd f.den
    let n := f.num.natAbs / g
    let d := f.den / g
    let a := factorOut 2 d
    let b := factorOut 5 a.2
    let k : Nat := max a.1 b.1
    if b.2 = 1 then
      some ⟨decide (f.num < 0), n * (10 ^ k / d), -(k : Int)⟩
    else
      Option.none

/-- Embedding of `_convert_to_target_unit(value, unit, target_unit, index)`: resolve the
source unit (an unrecognized symbol is pint's `UndefinedUnitError`, rewrapped
as a `ValueError` naming the index and the symbol), convert the quantity to
the target unit (a dimension mismatch is pint's `DimensionalityError`,
rewrapped as a `ValueError` naming the index, the source unit, and the
target unit), and coerce the magnitude back through `Decimal(str(...))`.
Modelled from the spec: conversion itself is performed by the external pint
registry; per spec §4.1.5/§9 it is exact decimal multiplication by the
factor ratio, and non-finite magnitudes pass through unchanged (as pint's
identical-unit early return does). -/
def convertToTargetUnit (reg : List (String × UnitDef)) (value : PyDecimal)
    (unit targetUnit : String) (index : Nat) : Except PyErr PyDecimal :=
  match lookupKey reg unit with
  | Option.none =>
    Except.error (PyErr.valueError
      ("Observable " ++ toString index ++ " field 'unit' has unsupported unit '"
        ++ unit ++ "'."))
  | some u =>
    match lookupKey reg targetUnit with
    | Option.none => Except.error PyErr.uncaughtUndefinedUnit
    | some t =>
      if u.dimension = t.dimension then
        match value with
        | PyDecimal.nan => Except.ok PyDecimal.nan
        | PyDecimal.inf s => Except.ok (PyDecimal.inf s)
        | PyDecimal.fin d =>
          match fracToDec (Frac.mul d.toFrac (Frac.div u.factor t.factor)) with
          | some d2 => Except.ok (PyDecimal.fin d2)
          | Option.none => Except.error PyErr.inexactMagnitude
      else
        Except.error (PyErr.valueError
          ("Observable " ++ toString index ++ " field 'unit' ('" ++ unit
            ++ "') cannot convert to " ++ targetUnit ++ "."))

/-! ### Record parsing and dataset loading -/

/-- Embedding of `_parse_observable(item, index, target_unit)`: the item must be a
mapping; the required fields `name`, `value`, `unit` are checked for
presence in that order, then `name` and `unit` are validated as strings and
`value` is parsed as a decimal, and the value is converted to the target
unit.  The resulting Observable's unit is always `targetUnit`. -/
def parseObservable (reg : List (String × UnitDef)) (item : Raw) (index : Nat)
    (targetUnit : String) : Except PyErr Observable :=
  match ensureMapping item ("Observable " ++ toString index ++ " must be a mapping.") with
  | Except.error e => Except.error e
  | Except.ok kvs =>
    match lookupKey kvs "name" with
    | Option.none =>
      Except.error (PyErr.valueError ("Observable " ++ toString index ++ " missing 'name'."))
    | some rawName =>
      match lookupKey kvs "value" with
      | Option.none =>
        Except.error (PyErr.valueError ("Observable " ++ toString index ++ " missing 'value'."))
      | some rawValue =>
        match lookupKey kvs "unit" with
        | Option.none =>
          Except.error (PyErr.valueError ("Observable " ++ toString index ++ " missing 'unit'."))
        | some rawUnit =>
          match ensureString rawName
            ("Observable " ++ toString index ++ " field 'name' must be a string.") with
          | Except.error e => Except.error e
          | Except.ok name =>
            match ensureString rawUnit
              ("Observable " ++ toString index ++ " field 'unit' must be a string.") with
            | Except.error e => Except.error e
            | Except.ok unit =>
              match parseDecimal rawValue
                ("Observable " ++ toString index ++ " field 'value' must be a number.") with
              | Except.error e => Except.error e
              | Except.ok value =>
                match convertToTargetUnit reg value unit targetUnit index with
                | Except.error e => Except.error e
                | Except.ok value2 => Except.ok ⟨name, value2, targetUnit⟩

/-- The indexed list comprehension
`[_parse_observable(item, index, target_unit) for index, item in enumerate(items)]`:
fail-fast, in input order, starting at index `i`. -/
def parseObservables (reg : List (String × UnitDef)) (targetUnit : String) :
    Nat → List Raw → Except PyErr (List Observable)
  | _, [] => Except.ok []
  | i, item :: rest =>
    match parseObservable reg item i targetUnit with
    | Except.error e => Except.error e
    | Except.ok o =>
      match parseObservables reg targetUnit (i + 1) rest with
      | Except.error e => Except.error e
      | Except.ok os => Except.ok (o :: os)

/-- Embedding of `_load_dataset` on an already-parsed YAML document (file reading and the
YAML text parser are delegated collaborators): the top level must be a
mapping, `title` must be a string, `observables` must be a list, and each
record is parsed in input order. -/
def loadDataset (reg : List (String × UnitDef)) (raw : Raw) (targetUnit : String) :
    Except PyErr Dataset :=
  match ensureMapping raw "Top-level YAML must be a mapping with an 'observables' key." with
  | Except.error e => Except.error e
  | Except.ok kvs =>
    match ensureString ((lookupKey kvs "title").getD Raw.none)
      "YAML 'title' must be a string." with
    | Except.error e => Except.error e
    | Except.ok title =>
      match (lookupKey kvs "observables").getD Raw.none with
      | Raw.list items =>
        match parseObservables reg targetUnit 0 items with
        | Except.error e => Except.error e
        | Except.ok observables => Except.ok ⟨title, observables⟩
      | _ => Except.error (PyErr.typeError "YAML 'observables' must be a list.")

/-- Modelled from the spec: a small concrete instance of the external pint
registry covering the units exercised by the spec's examples — metric
lengths related by exact powers of ten, and times with the non-trivial
minute factor. -/
def specRegistry : List (String × UnitDef) :=
  [("m", ⟨"length", ⟨1, 1⟩⟩),
   ("mm", ⟨"length", ⟨1, 1000⟩⟩),
   ("km", ⟨"length", ⟨1000, 1⟩⟩),
   ("s", ⟨"time", ⟨1, 1⟩⟩),
   ("min", ⟨"time", ⟨60, 1⟩⟩)]

/-- Finiteness of a Python decimal (`Decimal.is_finite()`). -/
def PyDecimal.isFinite : PyDecimal → Bool
  | PyDecimal.fin _ => true
  | PyDecimal.inf _ => false
  | PyDecimal.nan => false

/-- The raw `value` field of a record, if present, parses to a finite
decimal (the message passed to `_parse_decimal` does not affect the parsed
value). -/
def rawValueFinite (item : Raw) : Prop :=
  ∀ kvs v msg d, item = Raw.map kvs → lookupKey kvs "value" = some v →
    parseDecimal v msg = Except.ok d → d.isFinite = true

/-- A raw value that is not a Python `int`, `float`, or `str` (the kinds
`_parse_decimal` forwards to `Decimal`); booleans, mappings, lists, and
`None` all satisfy this. -/
def notNumericRaw (v : Raw) : Prop :=
  (∀ n, v ≠ Raw.int n) ∧ (∀ s, v ≠ Raw.float s) ∧ (∀ s, v ≠ Raw.str s)

/-- A raw value that is not a Python `str`. -/
def notStrRaw (v : Raw) : Prop := ∀ s, v ≠ Raw.str s

/-! ### Formatter support definitions -/

/-- The unsigned magnitude denoted by a finite decimal. -/
def Dec.posVal (d : Dec) : ℚ := (d.coeff : ℚ) * tpow d.exp

/-- The exactly scaled absolute value inside `_scientific_parts` for a
nonzero coefficient `c`: the coefficient at exponent `1 - numDigits c`, a
value in `[1, 10)`, before the context round of `scaleb`. -/
def scaledAbs (c : Nat) : Dec := ⟨false, c, 1 - (numDigits c : Int)⟩

/-- The two-decimal rounded mantissa coefficient produced inside
`_scientific_parts` for a nonzero coefficient `c`: context-round the scaled
absolute value to 28 significant digits half-even (`scaleb`'s `_fix`), then
quantize to exponent `-2` half-up. -/
def roundedMantissa (c : Nat) : Nat :=
  ((ctxFix (scaledAbs c)).quantize).coeff

/-- The mantissa coefficient after the `10.00` rollover correction. -/
def mantissaFinal (c : Nat) : Nat :=
  if roundedMantissa c = 1000 then 100 else roundedMantissa c

/-- The exponent increment contributed by the rollover correction. -/
def rollAdj (c : Nat) : Int :=
  if roundedMantissa c = 1000 then 1 else 0

theorem tpow_eq_zpow (e : Int) : tpow e = (10 : ℚ) ^ e := by
  cases e with
  | ofNat n => simp [tpow]
  | negSucc n => simp [tpow, zpow_negSucc, one_div]

theorem tpow_pos (e : Int) : 0 < tpow e := by
  rw [tpow_eq_zpow]
  exact zpow_pos (by norm_num) e

/-- For a nonzero coefficient the structural digit count agrees with
`Nat.log`. -/
theorem digLenAux_eq (fuel n : Nat) (hn : n ≠ 0) (hfuel : n ≤ fuel) :
    digLenAux fuel n = Nat.log 10 n + 1 := by
  induction fuel generalizing n with
  | zero => omega
  | succ fuel ih =>
    unfold digLenAux
    by_cases hlt : n < 10
    · rw [if_pos hlt, Nat.log_of_lt hlt]
    · rw [if_neg hlt]
      have h10 : 10 ≤ n := by omega
      have hquot0 : n / 10 ≠ 0 := by
        have := Nat.div_le_div_right (c := 10) h10
        simp at this
        omega
      have hquotlt : n / 10 ≤ fuel := by
        have := Nat.div_lt_self (by omega : 0 < n) (by norm_num : 1 < 10)
        omega
      rw [ih (n / 10) hquot0 hquotlt, Nat.log_of_one_lt_of_le (by norm_num) h10]

/-- For a nonzero coefficient the digit count is `log10 + 1`. -/
theorem numDigits_eq (c : Nat) (hc : c ≠ 0) : numDigits c = Nat.log 10 c + 1 :=
  digLenAux_eq c c hc le_rfl

theorem tpow_add (a b : Int) : tpow (a + b) = tpow a * tpow b := by
  rw [tpow_eq_zpow, tpow_eq_zpow, tpow_eq_zpow,
    zpow_add₀ (by norm_num : (10 : ℚ) ≠ 0)]

theorem tpow_natCast (n : Nat) : tpow (n : Int) = 10 ^ n := by
  rw [tpow_eq_zpow, zpow_natCast]

theorem tpow_neg_natCast (k : Nat) : tpow (-(k : Int)) = 1 / 10 ^ k := by
  cases k with
  | zero => norm_num [tpow]
  | succ j =>
    show tpow (Int.negSucc j) = 1 / 10 ^ (j + 1)
    rfl

theorem tpow_toNat (e : Int) (he : 0 ≤ e) : tpow e = 10 ^ e.toNat := by
  cases e with
  | ofNat n => simp [tpow]
  | negSucc n => exact absurd he (Int.not_le.mpr (Int.negSucc_lt_zero n))

/-- With the adjusted exponent within `scaleb`'s argument bound, scaling the
absolute value by `10^(-adjusted)` succeeds and yields the context round of
the exactly scaled coefficient. -/
theorem scaleb_copy_abs (d : Dec)
    (hlo : -2000054 ≤ d.adjusted) (hhi : d.adjusted ≤ 2000054) :
    d.copy_abs.scaleb (-(d.copy_abs.adjusted)) =
      Except.ok (ctxFix (scaledAbs d.coeff)) := by
  unfold Dec.scaleb
  split_ifs with hb
  · exfalso
    simp only [Dec.copy_abs, Dec.adjusted] at hb hlo hhi
    omega
  · show Except.ok (ctxFix ⟨false, d.coeff, d.exp + -(d.copy_abs.adjusted)⟩) =
      Except.ok (ctxFix (scaledAbs d.coeff))
    rw [show d.exp + -(d.copy_abs.adjusted) = 1 - (numDigits d.coeff : Int) from by
      simp only [Dec.copy_abs, Dec.adjusted]; omega]
    rfl

/-- Half-up quantization error bound for an arbitrary representation: the
quantized coefficient is within half a final unit of `100` times the
unsigned value. -/
theorem quantize_coeff_bound (w : Dec) :
    |(w.quantize.coeff : ℚ) - 100 * w.posVal| ≤ 1 / 2 := by
  unfold Dec.quantize Dec.posVal
  by_cases h : (-2 : Int) ≤ w.exp
  · simp only [h, if_pos]
    have htp : (10 : ℚ) ^ (w.exp + 2).toNat = tpow w.exp * 100 := by
      rw [← tpow_toNat (w.exp + 2) (by omega), tpow_add]
      norm_num [tpow]
    have hval : ((w.coeff * 10 ^ (w.exp + 2).toNat : Nat) : ℚ) =
        100 * ((w.coeff : ℚ) * tpow w.exp) := by
      push_cast
      rw [htp]
      ring
    rw [hval]
    simp
  · simp only [h, if_neg, not_false_iff]
    set k : Nat := (-(w.exp + 2)).toNat with hkdef
    have hk1 : 1 ≤ k := by omega
    have hwe : w.exp = -((k + 2 : Nat) : Int) := by omega
    have hval : 100 * ((w.coeff : ℚ) * tpow w.exp) = (w.coeff : ℚ) / 10 ^ k := by
      rw [hwe, tpow_neg_natCast, show ((k + 2 : Nat)) = k + 2 from rfl, pow_add]
      have h2 : ((10 : ℚ)) ^ 2 = 100 := by norm_num
      rw [h2]
      have hknz : ((10 : ℚ)) ^ k ≠ 0 := by positivity
      field_simp
      ring
    rw [hval]
    set H : Nat := 5 * 10 ^ (k - 1) with hH
    have hD : (10 : Nat) ^ k = 2 * H := by
      have hk : k = (k - 1) + 1 := by omega
      calc (10 : Nat) ^ k = 10 ^ ((k - 1) + 1) := by rw [← hk]
        _ = 10 ^ (k - 1) * 10 := pow_succ _ _
        _ = 2 * H := by rw [hH]; ring
    have hhalf : (10 : Nat) ^ k / 2 = H := by
      rw [hD]; omega
    rw [hhalf]
    set q : Nat := (w.coeff + H) / 10 ^ k with hq
    have hHpos : 0 < H := by positivity
    have hDpos : 0 < (10 : Nat) ^ k := by positivity
    have hub : q * 10 ^ k ≤ w.coeff + H := Nat.div_mul_le_self _ _
    have hlb : w.coeff + H < q * 10 ^ k + 10 ^ k := by
      have hmod := Nat.div_add_mod (w.coeff + H) (10 ^ k)
      have hrem := Nat.mod_lt (w.coeff + H) hDpos
      rw [hq]
      nlinarith [hmod, hrem]
    have hDq : (0 : ℚ) < (10 : ℚ) ^ k := by positivity
    have hcast1 : (q : ℚ) * 10 ^ k ≤ (w.coeff : ℚ) + H := by
      have : ((q * 10 ^ k : Nat) : ℚ) ≤ ((w.coeff + H : Nat) : ℚ) := by exact_mod_cast hub
      push_cast at this
      linarith
    have hcast2 : (w.coeff : ℚ) + H < (q : ℚ) * 10 ^ k + 10 ^ k := by
      have : ((w.coeff + H : Nat) : ℚ) < ((q * 10 ^ k + 10 ^ k : Nat) : ℚ) := by
        exact_mod_cast hlb
      push_cast at this
      linarith
    have hcastD : ((10 : ℚ)) ^ k = 2 * (H : ℚ) := by exact_mod_cast hD
    have hkey : (q : ℚ) - (w.coeff : ℚ) / 10 ^ k =
        ((q : ℚ) * 10 ^ k - w.coeff) / 10 ^ k := by
      field_simp
    rw [abs_le, hkey]
    constructor
    · rw [le_div_iff₀ hDq]
      linarith [hcast2, hcastD]
    · rw [div_le_iff₀ hDq]
      linarith [hcast1, hcastD]

/-- The exactly scaled absolute value as a rational. -/
theorem scaledAbs_posVal (c : Nat) (hc : c ≠ 0) :
    (scaledAbs c).posVal = (c : ℚ) / 10 ^ Nat.log 10 c := by
  unfold scaledAbs Dec.posVal
  simp only
  rw [show (1 - (numDigits c : Int)) = -((Nat.log 10 c : Nat) : Int) from by
    rw [numDigits_eq c hc]; omega]
  rw [tpow_neg_natCast]
  ring

/-- The exactly scaled absolute value lies in `[1, 10)`. -/
theorem scaledAbs_range (c : Nat) (hc : c ≠ 0) :
    1 ≤ (scaledAbs c).posVal ∧ (scaledAbs c).posVal < 10 := by
  rw [scaledAbs_posVal c hc]
  set L := Nat.log 10 c with hL
  have hlow : (10 : Nat) ^ L ≤ c := Nat.pow_log_le_self 10 hc
  have hhigh : c < 10 ^ (L + 1) := Nat.lt_pow_succ_log_self (by norm_num) c
  have hlowq : ((10 : ℚ)) ^ L ≤ (c : ℚ) := by exact_mod_cast hlow
  have hhighq : (c : ℚ) < 10 ^ (L + 1) := by exact_mod_cast hhigh
  have hpos : (0 : ℚ) < 10 ^ L := by positivity
  constructor
  · rw [le_div_iff₀ hpos]
    nlinarith
  · rw [div_lt_iff₀ hpos]
    rw [pow_succ] at hhighq
    nlinarith

/-- Half-even division lands on the floor or the floor plus one. -/
theorem halfEvenDiv_bounds (c D : Nat) :
    c / D ≤ halfEvenDiv c D ∧ halfEvenDiv c D ≤ c / D + 1 := by
  unfold halfEvenDiv
  split_ifs <;> omega

/-- The context round is the identity on coefficients of at most 28
digits. -/
theorem ctxFix_id (w : Dec) (h : numDigits w.coeff ≤ 28) : ctxFix w = w := by
  unfold ctxFix
  rw [if_pos h]

/-- Value of the context round of a long coefficient: the half-even rounded
quotient at the shifted exponent (the carry branch denotes the same
value). -/
theorem ctxFix_posVal_of_gt (w : Dec) (h : 28 < numDigits w.coeff) :
    (ctxFix w).posVal =
      (halfEvenDiv w.coeff (10 ^ (numDigits w.coeff - 28)) : ℚ) *
        tpow (w.exp + ((numDigits w.coeff - 28 : Nat) : Int)) := by
  unfold ctxFix
  rw [if_neg (by omega)]
  dsimp only
  by_cases hov : halfEvenDiv w.coeff (10 ^ (numDigits w.coeff - 28)) = 10 ^ 28
  · rw [if_pos hov, hov]
    unfold Dec.posVal
    simp only
    rw [show w.exp + ((numDigits w.coeff - 28 : Nat) : Int) + 1 =
      (w.exp + ((numDigits w.coeff - 28 : Nat) : Int)) + 1 from by ring]
    rw [tpow_add, show tpow 1 = 10 from by norm_num [tpow]]
    push_cast
    ring
  · rw [if_neg hov]
    rfl

/-- The context round keeps the scaled absolute value inside `[1, 10]` (it
can reach exactly `10` when a 29-plus-digit coefficient just below ten
rounds up). -/
theorem ctxFix_scaledAbs_range (c : Nat) (hc : c ≠ 0) :
    1 ≤ (ctxFix (scaledAbs c)).posVal ∧ (ctxFix (scaledAbs c)).posVal ≤ 10 := by
  by_cases hdig : numDigits c ≤ 28
  · rw [ctxFix_id (scaledAbs c) hdig]
    obtain ⟨h1, h2⟩ := scaledAbs_range c hc
    exact ⟨h1, le_of_lt h2⟩
  · have h28 : 28 < numDigits c := by omega
    have hco : (scaledAbs c).coeff = c := rfl
    have hex : (scaledAbs c).exp = 1 - (numDigits c : Int) := rfl
    rw [ctxFix_posVal_of_gt (scaledAbs c) h28, hco, hex]
    set nd := numDigits c with hnd
    set k : Nat := nd - 28 with hkdef
    have hexp : 1 - (nd : Int) + ((k : Nat) : Int) = -((27 : Nat) : Int) := by omega
    rw [hexp, tpow_neg_natCast]
    set q : Nat := halfEvenDiv c (10 ^ k) with hq
    have hbounds := halfEvenDiv_bounds c (10 ^ k)
    have hndlog : nd = Nat.log 10 c + 1 := numDigits_eq c hc
    have hclow : 10 ^ (nd - 1) ≤ c := by
      rw [hndlog]
      simpa using Nat.pow_log_le_self 10 hc
    have hchigh : c < 10 ^ nd := by
      rw [hndlog]
      exact Nat.lt_pow_succ_log_self (by norm_num) c
    have hqlow : 10 ^ 27 ≤ q := by
      have h1 : (10 : Nat) ^ (nd - 1) / 10 ^ k ≤ c / 10 ^ k :=
        Nat.div_le_div_right hclow
      have h2 : (10 : Nat) ^ (nd - 1) / 10 ^ k = 10 ^ 27 := by
        rw [Nat.pow_div (by omega) (by norm_num)]
        congr 1
        omega
      omega
    have hqhigh : q ≤ 10 ^ 28 := by
      have h1 : c / 10 ^ k < 10 ^ 28 := by
        rw [Nat.div_lt_iff_lt_mul (by positivity)]
        calc c < 10 ^ nd := hchigh
          _ = 10 ^ 28 * 10 ^ k := by rw [← pow_add]; congr 1; omega
      omega
    have hqlowq : ((10 : ℚ)) ^ 27 ≤ (q : ℚ) := by exact_mod_cast hqlow
    have hqhighq : (q : ℚ) ≤ 10 ^ 28 := by exact_mod_cast hqhigh
    constructor
    · rw [show (q : ℚ) * (1 / 10 ^ 27) = q / 10 ^ 27 from by ring,
        le_div_iff₀ (by positivity : (0 : ℚ) < 10 ^ 27)]
      linarith
    · rw [show (q : ℚ) * (1 / 10 ^ 27) = q / 10 ^ 27 from by ring,
        div_le_iff₀ (by positivity : (0 : ℚ) < 10 ^ 27)]
      nlinarith

/-- The rounded mantissa coefficient lies in `[100, 1000]`. -/
theorem roundedMantissa_range (c : Nat) (hc : c ≠ 0) :
    100 ≤ roundedMantissa c ∧ roundedMantissa c ≤ 1000 := by
  have hb := quantize_coeff_bound (ctxFix (scaledAbs c))
  have hr := ctxFix_scaledAbs_range c hc
  rw [abs_le] at hb
  unfold roundedMantissa
  constructor
  · have h99 : (99 : ℚ) < (((ctxFix (scaledAbs c)).quantize).coeff : ℚ) := by
      nlinarith [hr.1, hb.1, hb.2]
    exact_mod_cast h99
  · have hq : ((((ctxFix (scaledAbs c)).quantize).coeff : ℚ)) < 1001 := by
      nlinarith [hr.2, hb.1, hb.2]
    have h1 : ((ctxFix (scaledAbs c)).quantize).coeff < 1001 := by exact_mod_cast hq
    omega

/-- For coefficients within the 28-digit context precision the pre-round is
the identity and the rounded mantissa is the exact half-up quantization. -/
theorem roundedMantissa_exact (c : Nat) (hdig : numDigits c ≤ 28) :
    roundedMantissa c = (Dec.quantize (scaledAbs c)).coeff := by
  unfold roundedMantissa
  rw [ctxFix_id (scaledAbs c) hdig]

/-- Half-up quantization error bound for a coefficient within the context
precision: the rounded mantissa is within half a final unit of the exact
scaled value `100 * c / 10^(log10 c)`. -/
theorem roundedMantissa_bound (c : Nat) (hc : c ≠ 0) (hdig : numDigits c ≤ 28) :
    |(roundedMantissa c : ℚ) - 100 * (c : ℚ) / 10 ^ Nat.log 10 c| ≤ 1 / 2 := by
  rw [roundedMantissa_exact c hdig]
  have hb := quantize_coeff_bound (scaledAbs c)
  rw [scaledAbs_posVal c hc] at hb
  rw [show 100 * (c : ℚ) / 10 ^ Nat.log 10 c =
    100 * ((c : ℚ) / 10 ^ Nat.log 10 c) from by ring]
  exact hb

/-- Structural characterization of `_scientific_parts` on a finite nonzero
decimal with in-bounds adjusted exponent: the output is the signed
rolled-over mantissa string together with the adjusted exponent plus the
rollover increment. -/
theorem scientificParts_fin (d : Dec) (hc : d.coeff ≠ 0)
    (hlo : -2000054 ≤ d.adjusted) (hhi : d.adjusted ≤ 2000054) :
    scientificParts (PyDecimal.fin d) =
      Except.ok ((if d.sign then "-" else "") ++ mantissaStr (mantissaFinal d.coeff),
        d.adjusted + rollAdj d.coeff) := by
  unfold scientificParts
  simp only [hc, if_neg, not_false_iff]
  rw [scaleb_copy_abs d hlo hhi]
  dsimp only
  have hadj : d.copy_abs.adjusted = d.adjusted := rfl
  rw [hadj]
  unfold mantissaFinal rollAdj roundedMantissa
  by_cases hroll : ((ctxFix (scaledAbs d.coeff)).quantize).coeff = 1000
  · simp [hroll]
  · simp [hroll]

/-- The rolled-over mantissa coefficient lies in `[100, 999]`. -/
theorem mantissaFinal_range (c : Nat) (hc : c ≠ 0) :
    100 ≤ mantissaFinal c ∧ mantissaFinal c ≤ 999 := by
  have h := roundedMantissa_range c hc
  unfold mantissaFinal
  by_cases hr : roundedMantissa c = 1000
  · rw [if_pos hr]; omega
  · rw [if_neg hr]; omega

/-- A mantissa string for a coefficient in `[100, 999]` never starts with a
minus sign. -/
theorem mantissaStr_head (q : Nat) (h1 : 100 ≤ q) (h2 : q ≤ 999) :
    (mantissaStr q).data.head? ≠ some '-' := by
  unfold mantissaStr
  rw [String.data_append, String.data_append]
  have hq1 : 1 ≤ q / 100 := by omega
  have hq9 : q / 100 ≤ 9 := by omega
  set n := q / 100 with hn
  have hhead : (toString n).data.head? ≠ some '-' ∧ (toString n).data ≠ [] := by
    interval_cases n <;> exact ⟨by decide, by decide⟩
  rw [List.append_assoc, List.head?_append_of_ne_nil _ hhead.2]
  exact hhead.1

/-- The sign prefix determines the head character of the formatted
mantissa. -/
theorem signed_mantissa_head (b : Bool) (q : Nat) (h1 : 100 ≤ q) (h2 : q ≤ 999) :
    (((if b then "-" else "") ++ mantissaStr q).data.head? = some '-') ↔ b = true := by
  cases b with
  | true =>
    rw [if_pos rfl, String.data_append,
      show ("-" : String).data = ['-'] from by decide]
    simp
  | false =>
    rw [if_neg (by simp), String.data_append,
      show ("" : String).data = [] from by decide, List.nil_append]
    simp only [Bool.false_eq_true, iff_false]
    exact mantissaStr_head q h1 h2

/-- C10: `_scientific_parts` on an exactly-zero decimal — of either sign and
any exponent, including negative zero — returns `("0.00", 0)`, with no sign
on the mantissa. -/
theorem scientificParts_zero (s : Bool) (e : Int) :
    scientificParts (PyDecimal.fin ⟨s, 0, e⟩) = Except.ok ("0.00", 0) := by
  simp [scientificParts]

/-- C3 (amended): on every finite nonzero decimal whose adjusted exponent
lies within the default decimal context's `scaleb` argument bound
`2*(Emax + prec) = 2000054`, `_scientific_parts` succeeds with a mantissa
string whose numeric magnitude `q/100` lies in `[1, 10)` after the rollover
correction, and which begins with `-` exactly when the input is negative.
Over all finite nonzero inputs the claim is false: outside that bound
`scaleb` raises `decimal.InvalidOperation` (see the counterexample). -/
theorem scientificParts_range_sign (d : Dec) (hc : d.coeff ≠ 0)
    (hlo : -2000054 ≤ d.adjusted) (hhi : d.adjusted ≤ 2000054) :
    ∃ q e, scientificParts (PyDecimal.fin d) =
        Except.ok ((if d.sign then "-" else "") ++ mantissaStr q, e) ∧
      1 ≤ (q : ℚ) / 100 ∧ (q : ℚ) / 100 < 10 ∧
      ((((if d.sign then "-" else "") ++ mantissaStr q).data.head? = some '-') ↔
        d.sign = true) := by
  obtain ⟨hqlo, hqhi⟩ := mantissaFinal_range d.coeff hc
  refine ⟨mantissaFinal d.coeff, _, scientificParts_fin d hc hlo hhi, ?_, ?_, ?_⟩
  · rw [le_div_iff₀ (by norm_num : (0 : ℚ) < 100)]
    have : (100 : ℚ) ≤ (mantissaFinal d.coeff : ℚ) := by exact_mod_cast hqlo
    linarith
  · rw [div_lt_iff₀ (by norm_num : (0 : ℚ) < 100)]
    have : (mantissaFinal d.coeff : ℚ) ≤ 999 := by exact_mod_cast hqhi
    linarith
  · exact signed_mantissa_head d.sign (mantissaFinal d.coeff) hqlo hqhi

/-- Witness for C3 at the spec's Bohr radius example `5.29e-11`. -/
theorem scientificParts_range_sign_witness :
    ∃ q e, scientificParts (PyDecimal.fin ⟨false, 529, -13⟩) =
        Except.ok ((if false then "-" else "") ++ mantissaStr q, e) ∧
      1 ≤ (q : ℚ) / 100 ∧ (q : ℚ) / 100 < 10 ∧
      ((((if false then "-" else "") ++ mantissaStr q).data.head? = some '-') ↔
        false = true) :=
  scientificParts_range_sign ⟨false, 529, -13⟩ (by decide) (by decide) (by decide)

/-- Counterexample to C3 as stated: the finite nonzero decimal `1E+3000000`
has adjusted exponent `3000000`, beyond the default context's `scaleb`
argument bound `2*(Emax + prec) = 2000054`, so `_scientific_parts` raises
`decimal.InvalidOperation` instead of returning a pair. -/
theorem scientificParts_huge_exponent_raises :
    scientificParts (PyDecimal.fin ⟨false, 1, 3000000⟩) =
      Except.error PyErr.invalidOperation := by
  decide

/-- C4: the rollover correction is applied whenever rounding the scaled
absolute value — the default context's 28-significant-digit half-even
pre-round inside `scaleb` followed by the half-up quantization — produces
exactly `10.00` (coefficient `1000`): the mantissa resets to `1.00` and the
exponent is one more than the adjusted exponent. -/
theorem scientificParts_rollover (d : Dec) (hc : d.coeff ≠ 0)
    (hlo : -2000054 ≤ d.adjusted) (hhi : d.adjusted ≤ 2000054)
    (hroll : roundedMantissa d.coeff = 1000) :
    scientificParts (PyDecimal.fin d) =
      Except.ok ((if d.sign then "-" else "") ++ "1.00", d.adjusted + 1) := by
  rw [scientificParts_fin d hc hlo hhi]
  unfold mantissaFinal rollAdj
  rw [if_pos hroll, if_pos hroll]
  have h100 : mantissaStr 100 = "1.00" := by decide
  rw [h100]

/-- Witness for C4 at the spec's example `9.996 * 10^5`: the naive exponent
is `5`, the rounded mantissa is exactly `10.00`, and the output is
`("1.00", 6)`. -/
theorem scientificParts_rollover_witness :
    roundedMantissa 9996 = 1000 ∧
      scientificParts (PyDecimal.fin ⟨false, 9996, 2⟩) = Except.ok ("1.00", 6) := by
  refine ⟨by decide, ?_⟩
  have h := scientificParts_rollover ⟨false, 9996, 2⟩ (by decide) (by decide) (by decide)
    (by decide)
  exact h.trans (by decide)

/-- C5 (amended): the sign is applied after rounding — a negative input
formats as its absolute value with `-` prefixed — and the exact tie `1.005`
formats to mantissa `1.01`, `-1.005` to `-1.01` (ties round up in
magnitude).  The spec's description of the rounding as half-away-from-zero
on the exact input value is false in general: the default decimal context
first rounds the scaled coefficient to 28 significant digits half-even
inside `scaleb`, so a value strictly below a tie can still round upward
(see the counterexample). -/
theorem scientificParts_half_up (c : Nat) (e : Int) (hc : c ≠ 0)
    (hlo : -2000054 ≤ (numDigits c : Int) - 1 + e)
    (hhi : (numDigits c : Int) - 1 + e ≤ 2000054) :
    (scientificParts (PyDecimal.fin ⟨true, c, e⟩) =
      Except.ok ("-" ++ mantissaStr (mantissaFinal c),
        Dec.adjusted ⟨true, c, e⟩ + rollAdj c) ∧
      scientificParts (PyDecimal.fin ⟨false, c, e⟩) =
      Except.ok (mantissaStr (mantissaFinal c),
        Dec.adjusted ⟨false, c, e⟩ + rollAdj c)) ∧
    scientificParts (PyDecimal.fin ⟨false, 1005, -3⟩) = Except.ok ("1.01", 0) ∧
    scientificParts (PyDecimal.fin ⟨true, 1005, -3⟩) = Except.ok ("-1.01", 0) := by
  refine ⟨⟨?_, ?_⟩, by decide, by decide⟩
  · have h := scientificParts_fin ⟨true, c, e⟩ hc hlo hhi
    simpa using h
  · have h := scientificParts_fin ⟨false, c, e⟩ hc hlo hhi
    have hempty : (("" : String) ++ mantissaStr (mantissaFinal c)) =
        mantissaStr (mantissaFinal c) := by
      apply String.ext
      rw [String.data_append]
      have hnil : ("" : String).data = [] := by decide
      rw [hnil, List.nil_append]
    simpa [hempty] using h

/-- Witness for C5 at the tie `1.005` (coefficient `1005`, exponent `-3`). -/
theorem scientificParts_half_up_witness :
    (scientificParts (PyDecimal.fin ⟨true, 1005, -3⟩) =
      Except.ok ("-" ++ mantissaStr (mantissaFinal 1005),
        Dec.adjusted ⟨true, 1005, -3⟩ + rollAdj 1005) ∧
      scientificParts (PyDecimal.fin ⟨false, 1005, -3⟩) =
      Except.ok (mantissaStr (mantissaFinal 1005),
        Dec.adjusted ⟨false, 1005, -3⟩ + rollAdj 1005)) ∧
    scientificParts (PyDecimal.fin ⟨false, 1005, -3⟩) = Except.ok ("1.01", 0) ∧
    scientificParts (PyDecimal.fin ⟨true, 1005, -3⟩) = Except.ok ("-1.01", 0) :=
  scientificParts_half_up 1005 (-3) (by decide) (by decide) (by decide)

/-- Counterexample to C5 as stated: the 32-digit value
`1.0049999999999999999999999999995` is strictly below the tie `1.005`, yet
the default context's 28-significant-digit half-even pre-round inside
`scaleb` rounds the scaled coefficient up to exactly `1.005000...`, which
the half-up quantization then rounds to `1.01`.  Exact half-up quantization
of the scaled value — what a half-away-from-zero rounding of the input
would give — yields mantissa `1.00`. -/
theorem contextRound_tie_counterexample :
    scientificParts
        (PyDecimal.fin ⟨false, 10049999999999999999999999999995, -31⟩) =
      Except.ok ("1.01", 0) ∧
    mantissaStr ((Dec.quantize
        (scaledAbs 10049999999999999999999999999995)).coeff) = "1.00" :=
  ⟨by decide, by decide⟩

/-- The absolute value of a finite decimal is its coefficient scaled by its
exponent. -/
theorem abs_toRat (d : Dec) : |Dec.toRat d| = (d.coeff : ℚ) * tpow d.exp := by
  unfold Dec.toRat
  have ht : 0 < tpow d.exp := tpow_pos d.exp
  cases hs : d.sign
  · rw [if_neg (by simp)]
    rw [abs_of_nonneg (by positivity)]
    ring
  · rw [if_pos rfl]
    rw [show (-1 : ℚ) * (d.coeff : ℚ) * tpow d.exp = -((d.coeff : ℚ) * tpow d.exp) from by
      ring]
    rw [abs_neg, abs_of_nonneg (by positivity)]

/-- C6 (amended): on every finite nonzero decimal whose coefficient has at
most the context's 28 significant digits and whose adjusted exponent is
within the `scaleb` argument bound, `_scientific_parts` returns a fixed
two-decimal mantissa string and a signed integer exponent such that the
mantissa magnitude `q/100` times `10^e` is within half a unit in the last
mantissa place (`0.005 * 10^e`) of the absolute value of the input,
including across the rollover case.  Over all finite nonzero inputs the
claim is false: a coefficient longer than 28 digits is first rounded
half-even inside `scaleb`, which can move the value by more than half a
final unit in total, and a huge adjusted exponent makes `scaleb` raise
(see the counterexample). -/
theorem scientificParts_within_tolerance (d : Dec) (hc : d.coeff ≠ 0)
    (hdig : numDigits d.coeff ≤ 28)
    (hlo : -2000054 ≤ d.adjusted) (hhi : d.adjusted ≤ 2000054) :
    ∃ q e, scientificParts (PyDecimal.fin d) =
        Except.ok ((if d.sign then "-" else "") ++ mantissaStr q, e) ∧
      abs ((q : ℚ) / 100 * tpow e - abs (Dec.toRat d)) ≤ 1 / 200 * tpow e := by
  refine ⟨mantissaFinal d.coeff, _, scientificParts_fin d hc hlo hhi, ?_⟩
  have hb := roundedMantissa_bound d.coeff hc hdig
  have hadjL : d.adjusted = (Nat.log 10 d.coeff : Int) + d.exp := by
    have hn := numDigits_eq d.coeff hc
    simp only [Dec.adjusted]
    omega
  set c := d.coeff with hcdef
  set L := Nat.log 10 c with hLdef
  have hP : (0 : ℚ) < 10 ^ L := by positivity
  have hT : (0 : ℚ) < tpow d.exp := tpow_pos d.exp
  rw [abs_toRat]
  have hb2 : |(roundedMantissa c : ℚ) * 10 ^ L - 100 * c| ≤ 1 / 2 * 10 ^ L := by
    have h := mul_le_mul_of_nonneg_right hb (le_of_lt hP)
    calc |(roundedMantissa c : ℚ) * 10 ^ L - 100 * c|
        = |((roundedMantissa c : ℚ) - 100 * c / 10 ^ L)| * 10 ^ L := by
          rw [← abs_of_pos hP, ← abs_mul, abs_of_pos hP]
          congr 1
          field_simp
      _ ≤ 1 / 2 * 10 ^ L := h
  have ht0 : (0 : ℚ) ≤ tpow d.exp / 100 := by positivity
  have h3 : |((roundedMantissa c : ℚ) * 10 ^ L - 100 * c) * (tpow d.exp / 100)| ≤
      1 / 2 * 10 ^ L * (tpow d.exp / 100) := by
    calc |((roundedMantissa c : ℚ) * 10 ^ L - 100 * c) * (tpow d.exp / 100)|
        = |(roundedMantissa c : ℚ) * 10 ^ L - 100 * c| * (tpow d.exp / 100) := by
          rw [abs_mul, abs_of_nonneg ht0]
      _ ≤ 1 / 2 * 10 ^ L * (tpow d.exp / 100) := mul_le_mul_of_nonneg_right hb2 ht0
  unfold mantissaFinal rollAdj
  by_cases hroll : roundedMantissa c = 1000
  · rw [if_pos hroll, if_pos hroll, hadjL]
    rw [hroll] at h3
    have htE : tpow ((L : Int) + d.exp + 1) = 10 ^ L * tpow d.exp * 10 := by
      rw [tpow_add, tpow_add, tpow_natCast]
      norm_num [tpow]
    rw [htE]
    calc |(100 : ℚ) / 100 * (10 ^ L * tpow d.exp * 10) - c * tpow d.exp|
        = |((1000 : ℚ) * 10 ^ L - 100 * c) * (tpow d.exp / 100)| := by
          congr 1
          ring
      _ ≤ 1 / 2 * 10 ^ L * (tpow d.exp / 100) := h3
      _ ≤ 1 / 200 * (10 ^ L * tpow d.exp * 10) := by nlinarith [mul_pos hP hT]
  · rw [if_neg hroll, if_neg hroll, hadjL]
    have htE : tpow ((L : Int) + d.exp + 0) = 10 ^ L * tpow d.exp := by
      rw [show (L : Int) + d.exp + 0 = (L : Int) + d.exp from by ring, tpow_add,
        tpow_natCast]
    rw [htE]
    calc |(roundedMantissa c : ℚ) / 100 * (10 ^ L * tpow d.exp) - c * tpow d.exp|
        = |((roundedMantissa c : ℚ) * 10 ^ L - 100 * c) * (tpow d.exp / 100)| := by
          congr 1
          ring
      _ ≤ 1 / 2 * 10 ^ L * (tpow d.exp / 100) := h3
      _ ≤ 1 / 200 * (10 ^ L * tpow d.exp) := by nlinarith [mul_pos hP hT]

/-- Witness for C6 at `3.48 * 10^6`. -/
theorem scientificParts_within_tolerance_witness :
    ∃ q e, scientificParts (PyDecimal.fin ⟨false, 348, 4⟩) =
        Except.ok ((if false then "-" else "") ++ mantissaStr q, e) ∧
      abs ((q : ℚ) / 100 * tpow e - abs (Dec.toRat ⟨false, 348, 4⟩)) ≤ 1 / 200 * tpow e :=
  scientificParts_within_tolerance ⟨false, 348, 4⟩ (by decide) (by decide) (by decide)
    (by decide)

/-- Counterexample to C6 as stated: on the finite nonzero value
`1.0049999999999999999999999999995` the formatter returns mantissa `1.01`
with exponent `0`, but `|1.01 - v| = 0.0050000000000000000000000000005`
exceeds the claimed tolerance `0.005 * 10^0`: the 28-digit half-even
pre-round inside `scaleb` and the half-up quantization together lose more
than half a final unit.  (The claim also fails on huge adjusted exponents,
where the formatter raises `decimal.InvalidOperation` instead of returning
a pair.) -/
theorem tolerance_exceeded_counterexample :
    scientificParts
        (PyDecimal.fin ⟨false, 10049999999999999999999999999995, -31⟩) =
      Except.ok ((if false then "-" else "") ++ mantissaStr 101, 0) ∧
    ¬(abs ((101 : ℚ) / 100 * tpow 0 -
        abs (Dec.toRat ⟨false, 10049999999999999999999999999995, -31⟩)) ≤
      1 / 200 * tpow 0) := by
  constructor
  · decide
  · rw [abs_toRat]
    dsimp only
    have h0 : tpow (0 : Int) = 1 := rfl
    have h31 : tpow (-31 : Int) = 1 / 10 ^ 31 := by
      rw [show (-31 : Int) = -((31 : Nat) : Int) from rfl, tpow_neg_natCast]
    rw [h0, h31]
    rw [abs_of_nonneg (by norm_num)]
    norm_num

/-! ### Exact conversion: fraction and factorization lemmas -/

theorem factorOutAux_spec (p : Nat) (fuel : Nat) :
    ∀ n, n ≤ fuel → (factorOutAux p fuel n).2 * p ^ (factorOutAux p fuel n).1 = n := by
  induction fuel with
  | zero =>
    intro n hn
    have : n = 0 := by omega
    subst this
    simp [factorOutAux]
  | succ fuel ih =>
    intro n hn
    unfold factorOutAux
    by_cases h : 1 < p ∧ 0 < n ∧ n % p = 0
    · rw [if_pos h]
      have hdvd : p ∣ n := Nat.dvd_of_mod_eq_zero h.2.2
      have hlt : n / p < n := Nat.div_lt_self h.2.1 h.1
      have hih := ih (n / p) (by omega)
      simp only [pow_succ]
      calc (factorOutAux p fuel (n / p)).2 *
            (p ^ (factorOutAux p fuel (n / p)).1 * p)
          = (factorOutAux p fuel (n / p)).2 * p ^ (factorOutAux p fuel (n / p)).1 * p := by
            ring
        _ = n / p * p := by rw [hih]
        _ = n := Nat.div_mul_cancel hdvd
    · rw [if_neg h]
      simp

theorem factorOutAux_not_dvd (p : Nat) (fuel : Nat) :
    ∀ n, 1 < p → 0 < n → n ≤ fuel → ¬ p ∣ (factorOutAux p fuel n).2 := by
  induction fuel with
  | zero => intro n _ hn hle; omega
  | succ fuel ih =>
    intro n hp hn hle
    unfold factorOutAux
    by_cases h : 1 < p ∧ 0 < n ∧ n % p = 0
    · rw [if_pos h]
      have hdvd : p ∣ n := Nat.dvd_of_mod_eq_zero h.2.2
      have hple : p ≤ n := Nat.le_of_dvd hn hdvd
      have hqpos : 0 < n / p := Nat.div_pos hple (by omega)
      have hlt : n / p < n := Nat.div_lt_self hn hp
      exact ih (n / p) hp hqpos (by omega)
    · rw [if_neg h]
      intro hcon
      have hcon2 : p ∣ n := hcon
      exact h ⟨hp, hn, Nat.mod_eq_zero_of_dvd hcon2⟩

theorem factorOut_spec (p n : Nat) :
    (factorOut p n).2 * p ^ (factorOut p n).1 = n :=
  factorOutAux_spec p n n le_rfl

theorem factorOut_not_dvd (p n : Nat) (hp : 1 < p) (hn : 0 < n) :
    ¬ p ∣ (factorOut p n).2 :=
  factorOutAux_not_dvd p n n hp hn le_rfl

theorem Frac_mul_toRat (a b : Frac) :
    (Frac.mul a b).toRat = a.toRat * b.toRat := by
  unfold Frac.mul Frac.toRat
  push_cast
  rw [div_mul_div_comm]

theorem natAbs_cast_of_nonneg (m : Int) (h : 0 ≤ m) : ((m.natAbs : ℚ)) = (m : ℚ) := by
  rw [Int.cast_natAbs, abs_of_nonneg (by exact_mod_cast h)]

theorem natAbs_cast_of_neg (m : Int) (h : m < 0) : ((m.natAbs : ℚ)) = -(m : ℚ) := by
  rw [Int.cast_natAbs, abs_of_neg (by exact_mod_cast h)]
  push_cast
  ring

theorem Frac_div_toRat (a b : Frac) :
    (Frac.div a b).toRat = a.toRat / b.toRat := by
  unfold Frac.div Frac.toRat
  by_cases h : 0 ≤ b.num
  · rw [if_pos h]
    simp only
    push_cast
    rw [natAbs_cast_of_nonneg b.num h, div_div_eq_mul_div, div_mul_eq_mul_div, div_div]
  · rw [if_neg h]
    simp only
    push_cast
    rw [natAbs_cast_of_neg b.num (not_le.mp h), div_div_eq_mul_div,
      div_mul_eq_mul_div, div_div, mul_neg, neg_div_neg_eq]

theorem Dec_toFrac_toRat (d : Dec) : d.toFrac.toRat = d.toRat := by
  unfold Dec.toFrac Dec.toRat Frac.toRat
  cases he : d.exp with
  | ofNat n =>
    simp only
    push_cast
    rw [show tpow (Int.ofNat n) = (10 : ℚ) ^ n from rfl]
    field_simp
  | negSucc n =>
    simp only
    push_cast
    rw [show tpow (Int.negSucc n) = 1 / (10 : ℚ) ^ (n + 1) from rfl]
    field_simp

theorem Dec_toFrac_den_ne (d : Dec) : d.toFrac.den ≠ 0 := by
  unfold Dec.toFrac
  cases d.exp with
  | ofNat n => simp
  | negSucc n => simp

/-- The sign decomposition of an integer cast. -/
theorem int_cast_sign_natAbs (m : Int) :
    (m : ℚ) = (if decide (m < 0) = true then (-1 : ℚ) else 1) * (m.natAbs : ℚ) := by
  by_cases h : m < 0
  · rw [if_pos (by simpa using h), natAbs_cast_of_neg m h]
    ring
  · rw [if_neg (by simpa using h), natAbs_cast_of_nonneg m (not_lt.mp h)]
    ring

/-- Soundness of `fracToDec`: a returned decimal denotes exactly the
fraction's value. -/
theorem fracToDec_sound (f : Frac) (dec : Dec) (h : fracToDec f = some dec) :
    Dec.toRat dec = f.toRat := by
  unfold fracToDec at h
  by_cases hden : f.den = 0
  · rw [if_pos hden] at h
    exact absurd h (by simp)
  · rw [if_neg hden] at h
    simp only at h
    set g := f.num.natAbs.gcd f.den with hg
    set n := f.num.natAbs / g with hn
    set d := f.den / g with hd
    set a := factorOut 2 d with ha
    set b := factorOut 5 a.2 with hb
    set k := max a.1 b.1 with hk
    by_cases hb2 : b.2 = 1
    · rw [if_pos hb2] at h
      have hdec : dec = ⟨decide (f.num < 0), n * (10 ^ k / d), -(k : Int)⟩ := by
        injection h with h2
        exact h2.symm
      have hgpos : 0 < g := Nat.gcd_pos_of_pos_right _ (Nat.pos_of_ne_zero hden)
      have hgn : g ∣ f.num.natAbs := Nat.gcd_dvd_left _ _
      have hgd : g ∣ f.den := Nat.gcd_dvd_right _ _
      have hdenfac : f.den = d * g := by
        rw [hd]
        exact (Nat.div_mul_cancel hgd).symm
      have hnfac : f.num.natAbs = n * g := by
        rw [hn]
        exact (Nat.div_mul_cancel hgn).symm
      have hdpos : 0 < d := by
        rcases Nat.eq_zero_or_pos d with h0 | h0
        · rw [h0] at hdenfac; simp at hdenfac; omega
        · exact h0
      have haspec := factorOut_spec 2 d
      have hbspec := factorOut_spec 5 a.2
      rw [← ha] at haspec
      rw [← hb] at hbspec
      rw [hb2, one_mul] at hbspec
      have hdfac : d = 5 ^ b.1 * 2 ^ a.1 := by
        rw [← haspec, ← hbspec]
      have hddvd : d ∣ 10 ^ k := by
        rw [hdfac, show (10 : Nat) = 5 * 2 from rfl, mul_pow]
        exact mul_dvd_mul (pow_dvd_pow 5 (le_max_right a.1 b.1))
          (pow_dvd_pow 2 (le_max_left a.1 b.1))
      have hcastdiv : (((10 : Nat) ^ k / d : Nat) : ℚ) = (10 : ℚ) ^ k / (d : ℚ) := by
        rw [Nat.cast_div hddvd (by exact_mod_cast hdpos.ne')]
        push_cast
        ring_nf
      have h10 : ((10 : ℚ)) ^ k ≠ 0 := by positivity
      have hdq : (d : ℚ) ≠ 0 := by exact_mod_cast hdpos.ne'
      have hgq : (g : ℚ) ≠ 0 := by exact_mod_cast hgpos.ne'
      rw [hdec]
      unfold Dec.toRat Frac.toRat
      simp only
      rw [tpow_neg_natCast, int_cast_sign_natAbs f.num, hnfac, hdenfac]
      push_cast [hcastdiv]
      by_cases hneg : f.num < 0
      · simp only [hneg, if_pos]
        field_simp
        ring
      · simp only [hneg, if_neg]
        field_simp
        ring
    · rw [if_neg hb2] at h
      exact absurd h (by simp)

/-- Completeness of `fracToDec`: a fraction whose value is an integer over a
power of ten is representable, so the coercion succeeds. -/
theorem fracToDec_isSome (f : Frac) (hden : f.den ≠ 0) (m : Int) (K : Nat)
    (hval : f.toRat = (m : ℚ) / 10 ^ K) :
    ∃ dec, fracToDec f = some dec := by
  unfold fracToDec
  rw [if_neg hden]
  simp only
  set g := f.num.natAbs.gcd f.den with hg
  set n := f.num.natAbs / g with hn
  set d := f.den / g with hd
  set a := factorOut 2 d with ha
  set b := factorOut 5 a.2 with hb
  suffices hb2 : b.2 = 1 by
    rw [if_pos hb2]
    exact ⟨_, rfl⟩
  have h10 : ((10 : ℚ)) ^ K ≠ 0 := by positivity
  have hdenq : ((f.den : ℚ)) ≠ 0 := by exact_mod_cast hden
  unfold Frac.toRat at hval
  rw [div_eq_div_iff hdenq h10] at hval
  have hcrossZ : f.num * 10 ^ K = m * (f.den : Int) := by exact_mod_cast hval
  have hcrossN : f.num.natAbs * 10 ^ K = m.natAbs * f.den := by
    have hcong := congrArg Int.natAbs hcrossZ
    simpa [Int.natAbs_mul, Int.natAbs_pow] using hcong
  have hgpos : 0 < g := Nat.gcd_pos_of_pos_right _ (Nat.pos_of_ne_zero hden)
  have hgn : g ∣ f.num.natAbs := Nat.gcd_dvd_left _ _
  have hgd : g ∣ f.den := Nat.gcd_dvd_right _ _
  have hdenfac : f.den = d * g := by
    rw [hd]
    exact (Nat.div_mul_cancel hgd).symm
  have hnfac : f.num.natAbs = n * g := by
    rw [hn]
    exact (Nat.div_mul_cancel hgn).symm
  have hdpos : 0 < d := by
    rcases Nat.eq_zero_or_pos d with h0 | h0
    · rw [h0] at hdenfac; simp at hdenfac; omega
    · exact h0
  have hred : n * 10 ^ K = m.natAbs * d := by
    have hG : (n * 10 ^ K) * g = (m.natAbs * d) * g := by
      rw [hnfac, hdenfac] at hcrossN
      calc n * 10 ^ K * g = n * g * 10 ^ K := by ring
        _ = m.natAbs * (d * g) := hcrossN
        _ = m.natAbs * d * g := by ring
    exact Nat.eq_of_mul_eq_mul_right hgpos hG
  have hcop : Nat.Coprime n d := Nat.coprime_div_gcd_div_gcd hgpos
  have hddvdprod : d ∣ n * 10 ^ K := ⟨m.natAbs, by rw [hred]; ring⟩
  have hdvd10K : d ∣ 10 ^ K := (Nat.Coprime.dvd_of_dvd_mul_left hcop.symm) hddvdprod
  have haspec := factorOut_spec 2 d
  have hbspec := factorOut_spec 5 a.2
  rw [← ha] at haspec
  rw [← hb] at hbspec
  have ha2pos : 0 < a.2 := by
    rcases Nat.eq_zero_or_pos a.2 with h0 | h0
    · rw [h0] at haspec; simp at haspec; omega
    · exact h0
  have hb2d : b.2 ∣ d := ⟨5 ^ b.1 * 2 ^ a.1, by rw [← haspec, ← hbspec]; ring⟩
  have hnot2 : ¬ 2 ∣ a.2 := factorOut_not_dvd 2 d (by norm_num) hdpos
  have hnot5 : ¬ 5 ∣ b.2 := factorOut_not_dvd 5 a.2 (by norm_num) ha2pos
  have hb2a2 : b.2 ∣ a.2 := ⟨5 ^ b.1, by rw [← hbspec]⟩
  have hnot2b : ¬ 2 ∣ b.2 := fun hdd => hnot2 (hdd.trans hb2a2)
  have hcop2 : Nat.Coprime b.2 2 :=
    ((Nat.prime_two.coprime_iff_not_dvd).2 hnot2b).symm
  have hcop5 : Nat.Coprime b.2 5 :=
    ((Nat.prime_five.coprime_iff_not_dvd).2 hnot5).symm
  have hcop10 : Nat.Coprime b.2 10 := by
    rw [show (10 : Nat) = 2 * 5 from rfl]
    exact Nat.Coprime.mul_right hcop2 hcop5
  have hcopK : Nat.Coprime b.2 (10 ^ K) := hcop10.pow_right K
  have hb2dvd : b.2 ∣ 10 ^ K := hb2d.trans hdvd10K
  exact (Nat.gcd_eq_left hb2dvd).symm.trans hcopK

/-- A decimal scaled by any integer power of ten is an integer over a power
of ten. -/
theorem dec_scaled_int_div_pow (d : Dec) (z : Int) :
    ∃ (m : Int) (K : Nat), Dec.toRat d * tpow z = (m : ℚ) / 10 ^ K := by
  have hsplit : Dec.toRat d * tpow z =
      (if d.sign then (-1 : ℚ) else 1) * d.coeff * tpow (d.exp + z) := by
    unfold Dec.toRat
    rw [tpow_add]
    ring
  rw [hsplit]
  cases hw : d.exp + z with
  | ofNat w =>
    refine ⟨(if d.sign then -1 else 1) * d.coeff * 10 ^ w, 0, ?_⟩
    rw [show tpow (Int.ofNat w) = (10 : ℚ) ^ w from rfl]
    cases d.sign <;> push_cast <;> ring
  | negSucc j =>
    refine ⟨(if d.sign then -1 else 1) * d.coeff, j + 1, ?_⟩
    rw [show tpow (Int.negSucc j) = 1 / (10 : ℚ) ^ (j + 1) from rfl]
    cases d.sign <;> push_cast <;> ring

/-- C1, modelled from the spec for the pint registry: when the source unit's
scale factor is exactly `10^z` times the target's (a power-of-ten sub-unit)
and the dimensions agree, `_convert_to_target_unit` succeeds and the
resulting decimal denotes exactly the input value times `10^z` — the exact
decimal ratio, with no residual error; hence repeated conversions introduce
no drift. -/
theorem convert_powTen_exact (reg : List (String × UnitDef)) (d : Dec)
    (u t : String) (i : Nat) (ud td : UnitDef) (z : Int)
    (hu : lookupKey reg u = some ud) (ht : lookupKey reg t = some td)
    (hdim : ud.dimension = td.dimension)
    (hud : ud.factor.den ≠ 0)
    (htnz : td.factor.toRat ≠ 0)
    (hratio : ud.factor.toRat = td.factor.toRat * tpow z) :
    ∃ d2, convertToTargetUnit reg (PyDecimal.fin d) u t i =
        Except.ok (PyDecimal.fin d2) ∧
      Dec.toRat d2 = Dec.toRat d * tpow z := by
  have hfval : (Frac.mul d.toFrac (Frac.div ud.factor td.factor)).toRat =
      Dec.toRat d * tpow z := by
    rw [Frac_mul_toRat, Frac_div_toRat, Dec_toFrac_toRat, hratio,
      mul_comm td.factor.toRat (tpow z), mul_div_assoc, div_self htnz, mul_one]
  have htn0 : td.factor.num ≠ 0 := by
    intro h0
    apply htnz
    unfold Frac.toRat
    rw [h0]
    simp
  have hfden : (Frac.mul d.toFrac (Frac.div ud.factor td.factor)).den ≠ 0 := by
    have hbase : ud.factor.den * td.factor.num.natAbs ≠ 0 :=
      Nat.mul_ne_zero hud (Int.natAbs_ne_zero.2 htn0)
    unfold Frac.mul Frac.div
    by_cases hbn : 0 ≤ td.factor.num
    · rw [if_pos hbn]
      exact Nat.mul_ne_zero (Dec_toFrac_den_ne d) hbase
    · rw [if_neg hbn]
      exact Nat.mul_ne_zero (Dec_toFrac_den_ne d) hbase
  obtain ⟨mz, K, hmk⟩ := dec_scaled_int_div_pow d z
  obtain ⟨dec, hdec⟩ := fracToDec_isSome _ hfden mz K (by rw [hfval]; exact hmk)
  refine ⟨dec, ?_, ?_⟩
  · unfold convertToTargetUnit
    simp [hu, ht, hdim, hdec]
  · rw [fracToDec_sound _ dec hdec, hfval]

/-- Witness for C1: converting `1000` of a `1/1000` sub-unit (`mm` to `m` in
the registry modelled from the spec) yields a decimal denoting exactly `1`. -/
theorem convert_powTen_exact_witness :
    (∃ d2, convertToTargetUnit specRegistry (PyDecimal.fin ⟨false, 1000, 0⟩) "mm" "m" 0 =
        Except.ok (PyDecimal.fin d2) ∧
      Dec.toRat d2 = Dec.toRat ⟨false, 1000, 0⟩ * tpow (-3)) ∧
    Dec.toRat ⟨false, 1000, 0⟩ * tpow (-3) = 1 := by
  constructor
  · refine convert_powTen_exact specRegistry ⟨false, 1000, 0⟩ "mm" "m" 0
      ⟨"length", ⟨1, 1000⟩⟩ ⟨"length", ⟨1, 1⟩⟩ (-3) rfl rfl rfl (by norm_num) ?_ ?_
    · unfold Frac.toRat
      norm_num
    · unfold Frac.toRat
      rw [show (-3 : Int) = Int.negSucc 2 from rfl]
      norm_num [tpow]
  · unfold Dec.toRat
    rw [show (-3 : Int) = Int.negSucc 2 from rfl,
      show (0 : Int) = Int.ofNat 0 from rfl]
    norm_num [tpow]

/-- C7: the two unit-conversion failure modes are distinct,
caller-distinguishable conditions.  An unrecognized source unit symbol fails
with the unknown-unit `ValueError` naming the record index and the bad
symbol; a recognized but dimensionally incompatible source unit fails with
the different incompatible-unit `ValueError` naming the index, the source
unit, and the target unit; and no unknown-unit message ever coincides with
an incompatible-unit message. -/
theorem convert_error_modes (reg : List (String × UnitDef)) (v : PyDecimal)
    (u t : String) (i : Nat) :
    (lookupKey reg u = Option.none →
      convertToTargetUnit reg v u t i =
        Except.error (PyErr.valueError
          ("Observable " ++ toString i ++ " field 'unit' has unsupported unit '"
            ++ u ++ "'."))) ∧
    (∀ ud td, lookupKey reg u = some ud → lookupKey reg t = some td →
      ud.dimension ≠ td.dimension →
      convertToTargetUnit reg v u t i =
        Except.error (PyErr.valueError
          ("Observable " ++ toString i ++ " field 'unit' ('" ++ u
            ++ "') cannot convert to " ++ t ++ "."))) ∧
    (∀ u2 t2 : String,
      ("Observable " ++ toString i ++ " field 'unit' has unsupported unit '"
        ++ u ++ "'.") ≠
      ("Observable " ++ toString i ++ " field 'unit' ('" ++ u2
        ++ "') cannot convert to " ++ t2 ++ ".")) := by
  refine ⟨?_, ?_, ?_⟩
  · intro h
    simp [convertToTargetUnit, h]
  · intro ud td h1 h2 hne
    simp [convertToTargetUnit, h1, h2, hne]
  · intro u2 t2 heq
    have hdata := congrArg String.data heq
    simp only [String.data_append, List.append_assoc] at hdata
    have h2 := List.append_cancel_left hdata
    have h3 := List.append_cancel_left h2
    have e := congrArg (fun l => l[14]?) h3
    simp [List.getElem?_append] at e

/-- Witness for C7: `bananas` is an unknown unit, `min` into `m` is an
incompatible conversion, and the two messages differ. -/
theorem convert_error_modes_witness :
    convertToTargetUnit specRegistry (PyDecimal.fin ⟨false, 1, 0⟩) "bananas" "m" 0 =
      Except.error (PyErr.valueError
        "Observable 0 field 'unit' has unsupported unit 'bananas'.") ∧
    convertToTargetUnit specRegistry (PyDecimal.fin ⟨false, 1, 0⟩) "min" "m" 0 =
      Except.error (PyErr.valueError
        "Observable 0 field 'unit' ('min') cannot convert to m.") ∧
    ("Observable " ++ toString 0 ++ " field 'unit' has unsupported unit '"
      ++ "bananas" ++ "'.") ≠
    ("Observable " ++ toString 0 ++ " field 'unit' ('" ++ "min"
      ++ "') cannot convert to " ++ "m" ++ ".") := by
  refine ⟨?_, ?_,
    (convert_error_modes specRegistry (PyDecimal.fin ⟨false, 1, 0⟩) "bananas" "m" 0).2.2
      "min" "m"⟩
  · exact ((convert_error_modes specRegistry (PyDecimal.fin ⟨false, 1, 0⟩)
      "bananas" "m" 0).1 rfl).trans (by decide)
  · exact ((convert_error_modes specRegistry (PyDecimal.fin ⟨false, 1, 0⟩)
      "min" "m" 0).2.1 ⟨"time", ⟨60, 1⟩⟩ ⟨"length", ⟨1, 1⟩⟩ rfl rfl
      (by decide)).trans (by decide)

/-! ### Loader structure lemmas -/

/-- Fail-fast indexed parsing: a successful parse has one output per input,
in order, and the output at position `j` is the parse of the input at
position `j` with index `i + j`. -/
theorem parseObservables_ok (reg : List (String × UnitDef)) (t : String) :
    ∀ (items : List Raw) (i : Nat) (os : List Observable),
      parseObservables reg t i items = Except.ok os →
      os.length = items.length ∧
      ∀ j (hj : j < items.length) (hj2 : j < os.length),
        parseObservable reg (items.get ⟨j, hj⟩) (i + j) t =
          Except.ok (os.get ⟨j, hj2⟩) := by
  intro items
  induction items with
  | nil =>
    intro i os h
    unfold parseObservables at h
    injection h with h
    subst h
    refine ⟨rfl, ?_⟩
    intro j hj hj2
    exact absurd hj (by simp)
  | cons x xs ih =>
    intro i os h
    unfold parseObservables at h
    cases hx : parseObservable reg x i t with
    | error e => rw [hx] at h; exact absurd h (by simp)
    | ok o =>
      rw [hx] at h
      cases hxs : parseObservables reg t (i + 1) xs with
      | error e => rw [hxs] at h; exact absurd h (by simp)
      | ok os2 =>
        rw [hxs] at h
        injection h with h
        subst h
        obtain ⟨hlen, hidx⟩ := ih (i + 1) os2 hxs
        refine ⟨by simp [hlen], ?_⟩
        intro j hj hj2
        cases j with
        | zero =>
          simpa using hx
        | succ j2 =>
          have hj' : j2 < xs.length := by simpa using hj
          have hj2' : j2 < os2.length := by simpa using hj2
          have := hidx j2 hj' hj2'
          rw [show i + 1 + j2 = i + (j2 + 1) from by omega] at this
          simpa using this

/-- Every observable in a successful parse comes from parsing some input
item at some index. -/
theorem parseObservables_mem (reg : List (String × UnitDef)) (t : String) :
    ∀ (items : List Raw) (i : Nat) (os : List Observable),
      parseObservables reg t i items = Except.ok os →
      ∀ o ∈ os, ∃ item ∈ items, ∃ j,
        parseObservable reg item j t = Except.ok o := by
  intro items
  induction items with
  | nil =>
    intro i os h
    unfold parseObservables at h
    injection h with h
    subst h
    intro o ho
    exact absurd ho (by simp)
  | cons x xs ih =>
    intro i os h
    unfold parseObservables at h
    cases hx : parseObservable reg x i t with
    | error e => rw [hx] at h; exact absurd h (by simp)
    | ok o =>
      rw [hx] at h
      cases hxs : parseObservables reg t (i + 1) xs with
      | error e => rw [hxs] at h; exact absurd h (by simp)
      | ok os2 =>
        rw [hxs] at h
        injection h with h
        subst h
        intro o2 ho2
        rcases List.mem_cons.mp ho2 with h0 | h0
        · exact ⟨x, by simp, i, by rw [h0]; exact hx⟩
        · obtain ⟨item, hmem, j, hp⟩ := ih (i + 1) os2 hxs o2 h0
          exact ⟨item, by simp [hmem], j, hp⟩

/-- Shape of a successful `_load_dataset`: the document was a mapping with a
list of observables, parsed in order from index `0`. -/
theorem loadDataset_ok (reg : List (String × UnitDef)) (raw : Raw) (t : String)
    (ds : Dataset) (h : loadDataset reg raw t = Except.ok ds) :
    ∃ kvs items, raw = Raw.map kvs ∧
      (lookupKey kvs "observables").getD Raw.none = Raw.list items ∧
      parseObservables reg t 0 items = Except.ok ds.observables := by
  unfold loadDataset at h
  cases hm : raw with
  | map kvs =>
    rw [hm] at h
    unfold ensureMapping at h
    dsimp only at h
    cases ht : ensureString ((lookupKey kvs "title").getD Raw.none)
        "YAML 'title' must be a string." with
    | error e => rw [ht] at h; exact absurd h (by simp)
    | ok title =>
      rw [ht] at h
      dsimp only at h
      cases hobs : (lookupKey kvs "observables").getD Raw.none with
      | list items =>
        rw [hobs] at h
        dsimp only at h
        cases hp : parseObservables reg t 0 items with
        | error e => rw [hp] at h; exact absurd h (by simp)
        | ok os =>
          rw [hp] at h
          dsimp only at h
          injection h with h
          subst h
          exact ⟨kvs, items, rfl, hobs, hp⟩
      | bool b => rw [hobs] at h; exact absurd h (by simp)
      | int n => rw [hobs] at h; exact absurd h (by simp)
      | float r => rw [hobs] at h; exact absurd h (by simp)
      | str s2 => rw [hobs] at h; exact absurd h (by simp)
      | map kvs2 => rw [hobs] at h; exact absurd h (by simp)
      | none => rw [hobs] at h; exact absurd h (by simp)
  | bool b => rw [hm] at h; exact absurd h (by simp [ensureMapping])
  | int n => rw [hm] at h; exact absurd h (by simp [ensureMapping])
  | float r => rw [hm] at h; exact absurd h (by simp [ensureMapping])
  | str s2 => rw [hm] at h; exact absurd h (by simp [ensureMapping])
  | list xs => rw [hm] at h; exact absurd h (by simp [ensureMapping])
  | none => rw [hm] at h; exact absurd h (by simp [ensureMapping])

/-- C9: order preservation — on every successful load, the Dataset's
observables sequence has exactly one entry per YAML list element, and the
Observable at position `j` is the parse of the `j`-th raw element at
zero-based index `j`. -/
theorem loadDataset_order (reg : List (String × UnitDef)) (raw : Raw)
    (t : String) (ds : Dataset) (kvs : List (String × Raw)) (items : List Raw)
    (hraw : raw = Raw.map kvs)
    (hitems : (lookupKey kvs "observables").getD Raw.none = Raw.list items)
    (h : loadDataset reg raw t = Except.ok ds) :
    ds.observables.length = items.length ∧
      ∀ j (hj : j < items.length) (hj2 : j < ds.observables.length),
        parseObservable reg (items.get ⟨j, hj⟩) j t =
          Except.ok (ds.observables.get ⟨j, hj2⟩) := by
  obtain ⟨kvs2, items2, hraw2, hitems2, hp⟩ := loadDataset_ok reg raw t ds h
  have hkvs : kvs2 = kvs := by
    rw [hraw] at hraw2
    injection hraw2 with h2
    exact h2.symm
  subst hkvs
  have hsame : items2 = items := by
    rw [hitems] at hitems2
    injection hitems2 with h2
    exact h2.symm
  rw [hsame] at hp
  obtain ⟨hlen, hidx⟩ := parseObservables_ok reg t items 0 ds.observables hp
  refine ⟨hlen, ?_⟩
  intro j hj hj2
  have := hidx j hj hj2
  simpa using this

/-- Witness for C9: a three-record dataset `[A, B, C]` loads to observables
in exactly that order. -/
theorem loadDataset_order_witness :
    (loadDataset specRegistry
        (Raw.map [("title", Raw.str "T"),
          ("observables", Raw.list
            [Raw.map [("name", Raw.str "A"), ("value", Raw.int 1), ("unit", Raw.str "m")],
             Raw.map [("name", Raw.str "B"), ("value", Raw.int 2), ("unit", Raw.str "m")],
             Raw.map [("name", Raw.str "C"), ("value", Raw.int 3), ("unit", Raw.str "m")]])])
        "m" =
      Except.ok ⟨"T",
        [⟨"A", PyDecimal.fin ⟨false, 1, 0⟩, "m"⟩,
         ⟨"B", PyDecimal.fin ⟨false, 2, 0⟩, "m"⟩,
         ⟨"C", PyDecimal.fin ⟨false, 3, 0⟩, "m"⟩]⟩) ∧
    (3 : Nat) = 3 ∧
    parseObservable specRegistry
        (Raw.map [("name", Raw.str "B"), ("value", Raw.int 2), ("unit", Raw.str "m")]) 1 "m" =
      Except.ok ⟨"B", PyDecimal.fin ⟨false, 2, 0⟩, "m"⟩ := by
  have hload : loadDataset specRegistry
      (Raw.map [("title", Raw.str "T"),
        ("observables", Raw.list
          [Raw.map [("name", Raw.str "A"), ("value", Raw.int 1), ("unit", Raw.str "m")],
           Raw.map [("name", Raw.str "B"), ("value", Raw.int 2), ("unit", Raw.str "m")],
           Raw.map [("name", Raw.str "C"), ("value", Raw.int 3), ("unit", Raw.str "m")]])])
      "m" =
    Except.ok ⟨"T",
      [⟨"A", PyDecimal.fin ⟨false, 1, 0⟩, "m"⟩,
       ⟨"B", PyDecimal.fin ⟨false, 2, 0⟩, "m"⟩,
       ⟨"C", PyDecimal.fin ⟨false, 3, 0⟩, "m"⟩]⟩ := by decide
  have h := loadDataset_order specRegistry _ "m" _
    [("title", Raw.str "T"),
     ("observables", Raw.list
       [Raw.map [("name", Raw.str "A"), ("value", Raw.int 1), ("unit", Raw.str "m")],
        Raw.map [("name", Raw.str "B"), ("value", Raw.int 2), ("unit", Raw.str "m")],
        Raw.map [("name", Raw.str "C"), ("value", Raw.int 3), ("unit", Raw.str "m")]])]
    [Raw.map [("name", Raw.str "A"), ("value", Raw.int 1), ("unit", Raw.str "m")],
     Raw.map [("name", Raw.str "B"), ("value", Raw.int 2), ("unit", Raw.str "m")],
     Raw.map [("name", Raw.str "C"), ("value", Raw.int 3), ("unit", Raw.str "m")]]
    rfl (by rfl) hload
  exact ⟨hload, h.1, h.2 1 (by decide) (by decide)⟩

/-! ### Finiteness through the pipeline -/

/-- On a finite decimal the formatter never raises the non-finite
`ValueError`: it either succeeds or raises `InvalidOperation` from
`scaleb`. -/
theorem scientificParts_fin_ne_nonfinite (d : Dec) :
    scientificParts (PyDecimal.fin d) ≠
      Except.error (PyErr.valueError "Observable value must be a finite number.") := by
  unfold scientificParts
  dsimp only
  by_cases hc : d.coeff = 0
  · rw [if_pos hc]
    simp
  · rw [if_neg hc]
    cases hs : d.copy_abs.scaleb (-(d.copy_abs.adjusted)) with
    | error er =>
      unfold Dec.scaleb at hs
      by_cases hb : (-(d.copy_abs.adjusted) < -2000054 ∨
          2000054 < -(d.copy_abs.adjusted))
      · rw [if_pos hb] at hs
        injection hs with hs
        rw [← hs]
        simp
      · rw [if_neg hb] at hs
        exact absurd hs (by simp)
    | ok w =>
      simp

/-- Conversion sends finite decimals to finite decimals. -/
theorem convert_finite (reg : List (String × UnitDef)) (v : PyDecimal)
    (u t : String) (i : Nat) (w : PyDecimal)
    (h : convertToTargetUnit reg v u t i = Except.ok w) (hv : v.isFinite = true) :
    w.isFinite = true := by
  unfold convertToTargetUnit at h
  cases hu : lookupKey reg u with
  | none => rw [hu] at h; exact absurd h (by simp)
  | some ud =>
    rw [hu] at h
    dsimp only at h
    cases ht : lookupKey reg t with
    | none => rw [ht] at h; exact absurd h (by simp)
    | some td =>
      rw [ht] at h
      dsimp only at h
      by_cases hdim : ud.dimension = td.dimension
      · rw [if_pos hdim] at h
        cases v with
        | fin d =>
          dsimp only at h
          cases hf : fracToDec (Frac.mul d.toFrac (Frac.div ud.factor td.factor)) with
          | none => rw [hf] at h; exact absurd h (by simp)
          | some d2 =>
            rw [hf] at h
            injection h with h
            rw [← h]
            rfl
        | inf s => exact absurd hv (by simp [PyDecimal.isFinite])
        | nan => exact absurd hv (by simp [PyDecimal.isFinite])
      · rw [if_neg hdim] at h
        exact absurd h (by simp)

/-- A successfully parsed record whose raw `value` field parses to a finite
decimal yields an Observable with a finite value. -/
theorem parseObservable_finite (reg : List (String × UnitDef)) (item : Raw)
    (i : Nat) (t : String) (o : Observable)
    (h : parseObservable reg item i t = Except.ok o) (hfin : rawValueFinite item) :
    o.value.isFinite = true := by
  unfold parseObservable at h
  cases hm : item with
  | map kvs =>
    rw [hm] at h
    unfold ensureMapping at h
    dsimp only at h
    cases hn : lookupKey kvs "name" with
    | none => rw [hn] at h; exact absurd h (by simp)
    | some rawName =>
      rw [hn] at h
      dsimp only at h
      cases hv : lookupKey kvs "value" with
      | none => rw [hv] at h; exact absurd h (by simp)
      | some rawValue =>
        rw [hv] at h
        dsimp only at h
        cases hu : lookupKey kvs "unit" with
        | none => rw [hu] at h; exact absurd h (by simp)
        | some rawUnit =>
          rw [hu] at h
          dsimp only at h
          cases hens : ensureString rawName
              ("Observable " ++ toString i ++ " field 'name' must be a string.") with
          | error e => rw [hens] at h; exact absurd h (by simp)
          | ok name =>
            rw [hens] at h
            dsimp only at h
            cases hens2 : ensureString rawUnit
                ("Observable " ++ toString i ++ " field 'unit' must be a string.") with
            | error e => rw [hens2] at h; exact absurd h (by simp)
            | ok unit =>
              rw [hens2] at h
              dsimp only at h
              cases hdec : parseDecimal rawValue
                  ("Observable " ++ toString i ++ " field 'value' must be a number.") with
              | error e => rw [hdec] at h; exact absurd h (by simp)
              | ok value =>
                rw [hdec] at h
                dsimp only at h
                have hvfin : value.isFinite = true :=
                  hfin kvs rawValue _ value hm hv hdec
                cases hconv : convertToTargetUnit reg value unit t i with
                | error e => rw [hconv] at h; exact absurd h (by simp)
                | ok value2 =>
                  rw [hconv] at h
                  injection h with h
                  have := convert_finite reg value unit t i value2 hconv hvfin
                  rw [← h]
                  exact this
  | bool b => rw [hm] at h; exact absurd h (by simp [ensureMapping])
  | int n => rw [hm] at h; exact absurd h (by simp [ensureMapping])
  | float r => rw [hm] at h; exact absurd h (by simp [ensureMapping])
  | str s2 => rw [hm] at h; exact absurd h (by simp [ensureMapping])
  | list xs => rw [hm] at h; exact absurd h (by simp [ensureMapping])
  | none => rw [hm] at h; exact absurd h (by simp [ensureMapping])

/-- C2 (amended): every Observable of a successfully loaded Dataset has a
finite value, and the formatter's non-finite guard cannot fire on it,
*provided every record's raw `value` field parses to a finite decimal*.
As stated in the spec the claim is false twice over: a `value` field that
is the string `"NaN"` — or a non-finite float — passes `_parse_decimal` and
produces a non-finite Observable on which the guard fires (see the
counterexample); and even a finite value such as `"1E+3000000"` loads
successfully but then makes `scaleb` raise an uncaught
`decimal.InvalidOperation` inside `_scientific_parts`, so the conclusion
asserts only that the non-finite `ValueError` is unreachable on loader
output, not that formatting succeeds. -/
theorem loadDataset_finite_formats (reg : List (String × UnitDef)) (raw : Raw)
    (t : String) (ds : Dataset)
    (h : loadDataset reg raw t = Except.ok ds)
    (hfin : ∀ kvs items, raw = Raw.map kvs →
      (lookupKey kvs "observables").getD Raw.none = Raw.list items →
      ∀ item ∈ items, rawValueFinite item) :
    ∀ o ∈ ds.observables, o.value.isFinite = true ∧
      scientificParts o.value ≠
        Except.error (PyErr.valueError "Observable value must be a finite number.") := by
  obtain ⟨kvs, items, hraw, hitems, hp⟩ := loadDataset_ok reg raw t ds h
  intro o ho
  obtain ⟨item, hmem, j, hpo⟩ :=
    parseObservables_mem reg t items 0 ds.observables hp o ho
  have hfini := parseObservable_finite reg item j t o hpo
    (hfin kvs items hraw hitems item hmem)
  refine ⟨hfini, ?_⟩
  cases hv : o.value with
  | fin d => exact scientificParts_fin_ne_nonfinite d
  | inf s => rw [hv] at hfini; exact absurd hfini (by simp [PyDecimal.isFinite])
  | nan => rw [hv] at hfini; exact absurd hfini (by simp [PyDecimal.isFinite])

/-- Counterexample to C2 as stated: a record whose `value` field is the
string `"NaN"` loads successfully into a Dataset containing a non-finite
Observable, on which `_scientific_parts` raises the non-finite
`ValueError`. -/
theorem loadDataset_nonfinite_reachable :
    loadDataset specRegistry
      (Raw.map [("title", Raw.str "T"),
        ("observables", Raw.list
          [Raw.map [("name", Raw.str "x"), ("value", Raw.str "NaN"),
            ("unit", Raw.str "m")]])])
      "m" =
    Except.ok ⟨"T", [⟨"x", PyDecimal.nan, "m"⟩]⟩ ∧
    scientificParts PyDecimal.nan =
      Except.error (PyErr.valueError "Observable value must be a finite number.") :=
  ⟨by decide, by decide⟩

/-- Witness for the amended C2 at the spec's Bohr radius dataset. -/
theorem loadDataset_finite_formats_witness :
    (PyDecimal.fin ⟨false, 529, -13⟩ : PyDecimal).isFinite = true ∧
    scientificParts (PyDecimal.fin ⟨false, 529, -13⟩ : PyDecimal) ≠
      Except.error (PyErr.valueError "Observable value must be a finite number.") := by
  have hload : loadDataset specRegistry
      (Raw.map [("title", Raw.str "Lengths"),
        ("observables", Raw.list
          [Raw.map [("name", Raw.str "Bohr radius"),
            ("value", Raw.float "5.29e-11"), ("unit", Raw.str "m")]])])
      "m" =
    Except.ok ⟨"Lengths",
      [⟨"Bohr radius", PyDecimal.fin ⟨false, 529, -13⟩, "m"⟩]⟩ := by decide
  have h := loadDataset_finite_formats specRegistry _ "m" _ hload ?_
  · exact h ⟨"Bohr radius", PyDecimal.fin ⟨false, 529, -13⟩, "m"⟩ (by simp)
  · intro kvs items hk hi item hm
    injection hk with hk
    subst hk
    rw [show (lookupKey [("title", Raw.str "Lengths"),
        ("observables", Raw.list
          [Raw.map [("name", Raw.str "Bohr radius"),
            ("value", Raw.float "5.29e-11"), ("unit", Raw.str "m")]])]
        "observables").getD Raw.none =
      Raw.list [Raw.map [("name", Raw.str "Bohr radius"),
        ("value", Raw.float "5.29e-11"), ("unit", Raw.str "m")]] from rfl] at hi
    injection hi with hi
    subst hi
    rw [List.mem_singleton] at hm
    subst hm
    intro kvs2 v msg dd hk2 hv2 hp2
    injection hk2 with hk2
    subst hk2
    rw [show lookupKey [("name", Raw.str "Bohr radius"),
        ("value", Raw.float "5.29e-11"), ("unit", Raw.str "m")] "value" =
      some (Raw.float "5.29e-11") from rfl] at hv2
    injection hv2 with hv2
    subst hv2
    rw [show parseDecimal (Raw.float "5.29e-11") msg =
      Except.ok (PyDecimal.fin ⟨false, 529, -13⟩) from rfl] at hp2
    injection hp2 with hp2
    rw [← hp2]
    rfl

/-! ### Record field validation -/

theorem ensureString_str (s : String) (msg : String) :
    ensureString (Raw.str s) msg = Except.ok s := rfl

/-- The helper `_ensure_string` rejects every non-string raw value with the given
message. -/
theorem ensureString_not_str (v : Raw) (msg : String) (hv : notStrRaw v) :
    ensureString v msg = Except.error (PyErr.typeError msg) := by
  cases v <;> first | rfl | exact absurd rfl (hv _)

/-- The helper `_parse_decimal` rejects booleans and every value that is not an `int`,
`float`, or `str` with a `TypeError` carrying the given message. -/
theorem parseDecimal_not_numeric (v : Raw) (msg : String) (hv : notNumericRaw v) :
    parseDecimal v msg = Except.error (PyErr.typeError msg) := by
  obtain ⟨hint, hfloat, hstr⟩ := hv
  cases v with
  | bool b => rfl
  | int n => exact absurd rfl (hint n)
  | float r => exact absurd rfl (hfloat r)
  | str s => exact absurd rfl (hstr s)
  | list xs => rfl
  | map kvs => rfl
  | none => rfl

/-- C8 (amended): record field validation in `_parse_observable`.  A missing
required field (`name`, `value`, `unit`, checked in that order) fails with a
`ValueError` naming the field and the zero-based record index; a boolean —
and any value that is not an `int`, `float`, or `str` — in the `value` field
fails with a `TypeError` naming the field, index, and expected kind; a
non-string `unit` field likewise.  (As stated the claim is false: a *string*
`value` field is not a type error — `_parse_decimal` accepts `str` and
forwards it to `Decimal`; see the counterexample.) -/
theorem parseObservable_validation (reg : List (String × UnitDef))
    (kvs : List (String × Raw)) (i : Nat) (t : String) :
    (lookupKey kvs "name" = Option.none →
      parseObservable reg (Raw.map kvs) i t =
        Except.error (PyErr.valueError
          ("Observable " ++ toString i ++ " missing 'name'."))) ∧
    (∀ rn, lookupKey kvs "name" = some rn → lookupKey kvs "value" = Option.none →
      parseObservable reg (Raw.map kvs) i t =
        Except.error (PyErr.valueError
          ("Observable " ++ toString i ++ " missing 'value'."))) ∧
    (∀ rn rv, lookupKey kvs "name" = some rn → lookupKey kvs "value" = some rv →
      lookupKey kvs "unit" = Option.none →
      parseObservable reg (Raw.map kvs) i t =
        Except.error (PyErr.valueError
          ("Observable " ++ toString i ++ " missing 'unit'."))) ∧
    (∀ n rv u, lookupKey kvs "name" = some (Raw.str n) →
      lookupKey kvs "value" = some rv → lookupKey kvs "unit" = some u →
      notStrRaw u →
      parseObservable reg (Raw.map kvs) i t =
        Except.error (PyErr.typeError
          ("Observable " ++ toString i ++ " field 'unit' must be a string."))) ∧
    (∀ n rv u, lookupKey kvs "name" = some (Raw.str n) →
      lookupKey kvs "value" = some rv → lookupKey kvs "unit" = some (Raw.str u) →
      notNumericRaw rv →
      parseObservable reg (Raw.map kvs) i t =
        Except.error (PyErr.typeError
          ("Observable " ++ toString i ++ " field 'value' must be a number."))) := by
  refine ⟨?_, ?_, ?_, ?_, ?_⟩
  · intro h1
    unfold parseObservable ensureMapping
    dsimp only
    rw [h1]
  · intro rn h1 h2
    unfold parseObservable ensureMapping
    dsimp only
    rw [h1, h2]
  · intro rn rv h1 h2 h3
    unfold parseObservable ensureMapping
    dsimp only
    rw [h1, h2, h3]
  · intro n rv u h1 h2 h3 hns
    unfold parseObservable ensureMapping
    dsimp only
    rw [h1, h2, h3]
    dsimp only
    rw [ensureString_str, ensureString_not_str u _ hns]
  · intro n rv u h1 h2 h3 hnn
    unfold parseObservable ensureMapping
    dsimp only
    rw [h1, h2, h3]
    dsimp only
    rw [ensureString_str, ensureString_str, parseDecimal_not_numeric rv _ hnn]

/-- Counterexample to C8 as stated: a record whose `value` field is the
*string* `"5"` is not rejected with a type error — the load succeeds and the
string is parsed as the decimal `5`. -/
theorem string_value_accepted :
    loadDataset specRegistry
      (Raw.map [("title", Raw.str "T"),
        ("observables", Raw.list
          [Raw.map [("name", Raw.str "x"), ("value", Raw.str "5"),
            ("unit", Raw.str "m")]])])
      "m" =
    Except.ok ⟨"T", [⟨"x", PyDecimal.fin ⟨false, 5, 0⟩, "m"⟩]⟩ := by decide

/-- Witness for the amended C8: a record missing `value` yields the missing-
field error naming index and field, and a boolean `value` yields the
number-type error. -/
theorem parseObservable_validation_witness :
    parseObservable specRegistry
        (Raw.map [("name", Raw.str "x"), ("unit", Raw.str "m")]) 0 "m" =
      Except.error (PyErr.valueError
        ("Observable " ++ toString 0 ++ " missing 'value'.")) ∧
    parseObservable specRegistry
        (Raw.map [("name", Raw.str "x"), ("value", Raw.bool true),
          ("unit", Raw.str "m")]) 0 "m" =
      Except.error (PyErr.typeError
        ("Observable " ++ toString 0 ++ " field 'value' must be a number.")) := by
  constructor
  · exact (parseObservable_validation specRegistry
      [("name", Raw.str "x"), ("unit", Raw.str "m")] 0 "m").2.1
      (Raw.str "x") rfl rfl
  · exact (parseObservable_validation specRegistry
      [("name", Raw.str "x"), ("value", Raw.bool true), ("unit", Raw.str "m")]
      0 "m").2.2.2.2 "x" (Raw.bool true) "m" rfl rfl rfl
      ⟨fun n h => Raw.noConfusion h, fun s h => Raw.noConfusion h,
        fun s h => Raw.noConfusion h⟩

end OrdersOfMagnitude
